import Mathlib

/-!
Verification development for the pl0 toolchain (lexer, recursive-descent
parser, stack-machine code generator, virtual machine, Python transpiler).

The definitions below are a shallow embedding of the Python sources:
  src/pl0/parser.py      (Lexer, Parser)
  src/pl0/constants.py   (OP_CODE, OPERATION)
  src/pl0/generators/codegen.py (Generator)
  src/pl0/generators/py3.py     (PythonTranspiler)
  src/pl0/vm.py          (VM)

Python dictionaries are modelled as association lists, Python `None` as
`Option.none`, exceptions (ParserException, KeyError, IndexError,
ZeroDivisionError) as `Except`/`Option` failure, and the VM's mutable
`datastore` list as a total function `Int → Int` (the source uses a fixed
list of 500 zeroed cells; all executions studied here stay in range).
Recursive-descent loops are driven by an explicit fuel parameter; fuel
exhaustion is reported as a reserved error (code 0) that no terminating
parse of the source ever produces.

A few parts of the repository's newer code are not present under src/
(only their tests and callers are); they are modelled from the spec and
are marked with a doc comment starting `Modelled from the spec:`.
-/

namespace PL0

/-- Token kinds, from `class Symbol` in src/pl0/parser.py. -/
inductive Symbol where
  | NULL | IDENT | NUMBER | PLUS | MINUS | TIMES | SLASH | ODD
  | EQL | NEQ | LESS | LEQ | GTR | GEQ | LPAREN | RPAREN
  | COMMA | SEMICOLON | PERIOD | BECOMES | BEGIN | END
  | IF | THEN | WHILE | DO | CALL | CONST | VAR | PROC | WRITE | DEBUG
  deriving DecidableEq

/-- A token's payload: Python `None`, an integer (NUMBER) or a string (IDENT). -/
inductive TokVal where
  | none
  | int (v : Int)
  | str (s : String)
  deriving DecidableEq

/-- `class Token` from src/pl0/parser.py: symbol, value, line, column. -/
structure Token where
  symbol : Symbol
  value : TokVal
  line : Nat
  column : Nat
  deriving DecidableEq

/-- The keyword table `Lexer.KEYWORDS` (upper-case spellings). -/
def keywordSym (w : String) : Option Symbol :=
  if w = "BEGIN" then some .BEGIN
  else if w = "CALL" then some .CALL
  else if w = "CONST" then some .CONST
  else if w = "DO" then some .DO
  else if w = "END" then some .END
  else if w = "IF" then some .IF
  else if w = "ODD" then some .ODD
  else if w = "PROCEDURE" then some .PROC
  else if w = "THEN" then some .THEN
  else if w = "VAR" then some .VAR
  else if w = "WHILE" then some .WHILE
  else if w = "WRITE" then some .WRITE
  else if w = "DEBUG" then some .DEBUG
  else none

/-- `word.upper()` on the scanned identifier. -/
def upperStr (s : String) : String := String.mk (s.data.map Char.toUpper)

/-- The identifier/keyword scanning loop of `Lexer.get_token`
(`while self.peek_next() in string.ascii_letters + string.digits`).
Returns the word, the column of its last character, and the rest. -/
def scanWord (acc : String) (col : Nat) : List Char → String × Nat × List Char
  | [] => (acc, col, [])
  | c :: cs =>
    if c.isAlpha || c.isDigit then scanWord (acc.push c) (col + 1) cs
    else (acc, col, c :: cs)

/-- The number scanning loop of `Lexer.get_token` together with `int(num)`. -/
def scanNum (acc : Int) (col : Nat) : List Char → Int × Nat × List Char
  | [] => (acc, col, [])
  | c :: cs =>
    if c.isDigit then scanNum (acc * 10 + ((c.toNat - 48 : Nat) : Int)) (col + 1) cs
    else (acc, col, c :: cs)

/-- `Lexer.get_token` from src/pl0/parser.py over the remaining input.
The lexer's cursor is represented by the remaining character list; `line`
and `col` are the running line/column counters (`get_char` increments the
column for every character consumed, a newline resets the column to 0 and
increments the line).  End of input behaves like the sentinel `"\0"`:
draining input yields a NULL token, as the source's final `else` does. -/
def getToken (line col : Nat) : List Char → Token × Nat × Nat × List Char
  | [] => (⟨.NULL, .none, line, col + 1⟩, line, col + 1, [])
  | c :: cs =>
    if c = ' ' ∨ c = '\t' then getToken line (col + 1) cs
    else if c = '\n' then getToken (line + 1) 0 cs
    else if c.isAlpha then
      match scanWord (String.singleton c) (col + 1) cs with
      | (w, col2, rest) =>
        match keywordSym (upperStr w) with
        | some k => (⟨k, .none, line, col2⟩, line, col2, rest)
        | none => (⟨.IDENT, .str w, line, col2⟩, line, col2, rest)
    else if c.isDigit then
      match scanNum (((c.toNat - 48 : Nat) : Int)) (col + 1) cs with
      | (n, col2, rest) => (⟨.NUMBER, .int n, line, col2⟩, line, col2, rest)
    else if c = ':' then
      match cs with
      | '=' :: rest => (⟨.BECOMES, .none, line, col + 2⟩, line, col + 2, rest)
      | _ :: rest => (⟨.NULL, .none, line, col + 2⟩, line, col + 2, rest)
      | [] => (⟨.NULL, .none, line, col + 2⟩, line, col + 2, [])
    else if c = '+' then (⟨.PLUS, .none, line, col + 1⟩, line, col + 1, cs)
    else if c = '-' then (⟨.MINUS, .none, line, col + 1⟩, line, col + 1, cs)
    else if c = '*' then (⟨.TIMES, .none, line, col + 1⟩, line, col + 1, cs)
    else if c = '/' then (⟨.SLASH, .none, line, col + 1⟩, line, col + 1, cs)
    else if c = '(' then (⟨.LPAREN, .none, line, col + 1⟩, line, col + 1, cs)
    else if c = ')' then (⟨.RPAREN, .none, line, col + 1⟩, line, col + 1, cs)
    else if c = '=' then (⟨.EQL, .none, line, col + 1⟩, line, col + 1, cs)
    else if c = ',' then (⟨.COMMA, .none, line, col + 1⟩, line, col + 1, cs)
    else if c = '.' then (⟨.PERIOD, .none, line, col + 1⟩, line, col + 1, cs)
    else if c = ';' then (⟨.SEMICOLON, .none, line, col + 1⟩, line, col + 1, cs)
    else if c = '<' then
      match cs with
      | '=' :: rest => (⟨.LEQ, .none, line, col + 2⟩, line, col + 2, rest)
      | _ => (⟨.LESS, .none, line, col + 1⟩, line, col + 1, cs)
    else if c = '>' then
      match cs with
      | '=' :: rest => (⟨.GEQ, .none, line, col + 2⟩, line, col + 2, rest)
      | _ => (⟨.GTR, .none, line, col + 1⟩, line, col + 1, cs)
    else if c = '!' then
      match cs with
      | '=' :: rest => (⟨.NEQ, .none, line, col + 2⟩, line, col + 2, rest)
      | _ :: rest => (⟨.NULL, .none, line, col + 2⟩, line, col + 2, rest)
      | [] => (⟨.NULL, .none, line, col + 2⟩, line, col + 2, [])
    else (⟨.NULL, .none, line, col + 1⟩, line, col + 1, cs)

/-- Repeatedly pull tokens until the input is drained (fueled; the fuel
`length + 1` always suffices since each token consumes at least one
character). -/
def tokenizeAux : Nat → Nat → Nat → List Char → List Token
  | 0, _, _, _ => []
  | _ + 1, _, _, [] => []
  | f + 1, line, col, c :: cs =>
    match getToken line col (c :: cs) with
    | (t, l2, c2, rest) => t :: tokenizeAux f l2 c2 rest

/-- Token stream of a source string (the lexer starts at line 1, column 0). -/
def tokenize (s : String) : List Token := tokenizeAux (s.length + 1) 1 0 s.data

/-- The characters that begin a non-NULL lexeme (or are skipped): letters,
digits, whitespace, and the operator/punctuation characters of
`Lexer.get_token`.  Any other character falls into the source's final
`else` branch and lexes to a NULL token. -/
def recognizedChar (c : Char) : Bool :=
  c.isAlpha || c.isDigit ||
    (c = ' ' || c = '\t' || c = '\n' || c = ':' || c = '+' || c = '-' ||
     c = '*' || c = '/' || c = '(' || c = ')' || c = '=' || c = ',' ||
     c = '.' || c = ';' || c = '<' || c = '>' || c = '!')

/-- Parse error, from `ParserException` and `Parser.error`: the error code
together with the offending token's line and column (the formatted message
and source excerpt are presentation only). -/
structure PErr where
  code : Nat
  line : Nat
  column : Nat
  deriving DecidableEq

/-- Fuel-exhaustion marker of the embedding (code 0 is not in ERROR_CODES;
a terminating parse run with sufficient fuel never produces it). -/
def fuelErr : PErr := ⟨0, 0, 0⟩

/-- The parser's flat declaration table `self.declarations`
(name → CONST | VAR | PROC); a Python dict modelled as an association
list where newer entries shadow older ones. -/
abbrev Decls := List (String × Symbol)

/-- `self.declarations.get(ident)` -/
def declLookup : Decls → String → Option Symbol
  | [], _ => none
  | (k, v) :: rest, name => if k = name then some v else declLookup rest name

/-- The NULL token the lexer produces once input is exhausted; the token
stream is a list, an empty list behaves as this sentinel. -/
def nullTok : Token := ⟨.NULL, .none, 0, 0⟩

/-- `self.token`, the current lookahead token. -/
def curTok (ts : List Token) : Token := ts.headD nullTok

/-- An error raised at the current token (`Parser.error`). -/
def perr (code : Nat) (ts : List Token) : PErr :=
  ⟨code, (curTok ts).line, (curTok ts).column⟩

/-- `Parser.match`: on the expected symbol return its value and advance,
otherwise raise the given error code at the current token. -/
def pmatch (sym : Symbol) (code : Nat) (ts : List Token) :
    Except PErr (TokVal × List Token) :=
  if (curTok ts).symbol = sym then .ok ((curTok ts).value, ts.tail)
  else .error (perr code ts)

/-- A token value read as a string (IDENT payload). -/
def tokvalStr : TokVal → String
  | .str s => s
  | _ => ""

/-- A token value read as an integer (NUMBER payload). -/
def tokvalInt : TokVal → Int
  | .int n => n
  | _ => 0

/-- AST nodes, the dicts built by `Parser.node`.  `block` statements and
the bodies of `if`/`while` may be Python `None` (an empty statement),
hence the `Option`.  The `call` node's `arguments` and the `procedure`
node's `parameters` list are produced by the repository's newer parser
(exercised by src/tests/test_parser.py); the older parser in
src/pl0/parser.py builds these nodes without those keys, which this
embedding renders as an empty list. -/
inductive Node where
  | constDecl (name : String) (value : Int)
  | varDecl (name : String)
  | procedure (name : String) (parameters : List Node) (blocks : List Node)
  | assignment (name : String) (value : Node)
  | call (name : String) (arguments : List Node)
  | block (statements : List (Option Node))
  | ifStmt (condition : Node) (body : Option Node)
  | loop (condition : Node) (body : Option Node)
  | output (value : Node)
  | debug
  | binary (operator : Symbol) (left : Node) (right : Node)
  | unary (operator : Symbol) (right : Node)
  | odd (expression : Node)
  | identifier (name : String)
  | number (value : Int)
  | grouping (expression : Node)

mutual

/-- `Parser.factor` from src/pl0/parser.py. -/
def parseFactor (decls : Decls) : Nat → List Token → Except PErr (Node × List Token)
  | 0, _ => .error fuelErr
  | f + 1, ts =>
    if (curTok ts).symbol = .IDENT then
      match declLookup decls (tokvalStr (curTok ts).value) with
      | none => .error (perr 11 ts)
      | some d =>
        if d = .PROC then .error (perr 21 ts)
        else .ok (.identifier (tokvalStr (curTok ts).value), ts.tail)
    else if (curTok ts).symbol = .NUMBER then
      .ok (.number (tokvalInt (curTok ts).value), ts.tail)
    else if (curTok ts).symbol = .LPAREN then
      match parseExpression decls f ts.tail with
      | .error e => .error e
      | .ok (e, ts1) =>
        match pmatch .RPAREN 22 ts1 with
        | .error er => .error er
        | .ok (_, ts2) => .ok (.grouping e, ts2)
    else .error (perr 23 ts)

/-- The `while TIMES/SLASH` loop of `Parser.term`. -/
def parseTermLoop (decls : Decls) : Nat → Node → List Token → Except PErr (Node × List Token)
  | 0, _, _ => .error fuelErr
  | f + 1, expr, ts =>
    if (curTok ts).symbol = .TIMES ∨ (curTok ts).symbol = .SLASH then
      match parseFactor decls f ts.tail with
      | .error e => .error e
      | .ok (r, ts1) => parseTermLoop decls f (.binary (curTok ts).symbol expr r) ts1
    else .ok (expr, ts)

/-- `Parser.term`. -/
def parseTerm (decls : Decls) : Nat → List Token → Except PErr (Node × List Token)
  | 0, _ => .error fuelErr
  | f + 1, ts =>
    match parseFactor decls f ts with
    | .error e => .error e
    | .ok (e, ts1) => parseTermLoop decls f e ts1

/-- The `while PLUS/MINUS` loop of `Parser.expression`. -/
def parseExprLoop (decls : Decls) : Nat → Node → List Token → Except PErr (Node × List Token)
  | 0, _, _ => .error fuelErr
  | f + 1, expr, ts =>
    if (curTok ts).symbol = .PLUS ∨ (curTok ts).symbol = .MINUS then
      match parseTerm decls f ts.tail with
      | .error e => .error e
      | .ok (r, ts1) => parseExprLoop decls f (.binary (curTok ts).symbol expr r) ts1
    else .ok (expr, ts)

/-- `Parser.expression`: a leading `-` becomes a Unary node, a leading `+`
is absorbed, then the additive loop. -/
def parseExpression (decls : Decls) : Nat → List Token → Except PErr (Node × List Token)
  | 0, _ => .error fuelErr
  | f + 1, ts =>
    if (curTok ts).symbol = .PLUS ∨ (curTok ts).symbol = .MINUS then
      if (curTok ts).symbol = .MINUS then
        match parseTerm decls f ts.tail with
        | .error e => .error e
        | .ok (t, ts1) => parseExprLoop decls f (.unary .MINUS t) ts1
      else
        match parseTerm decls f ts.tail with
        | .error e => .error e
        | .ok (t, ts1) => parseExprLoop decls f t ts1
    else
      match parseTerm decls f ts with
      | .error e => .error e
      | .ok (t, ts1) => parseExprLoop decls f t ts1

end

/-- `Parser.condition`: `odd expression`, or two expressions joined by a
relational operator; a missing relational operator raises error 20. -/
def parseCondition (decls : Decls) : Nat → List Token → Except PErr (Node × List Token)
  | 0, _ => .error fuelErr
  | f + 1, ts =>
    if (curTok ts).symbol = .ODD then
      match parseExpression decls f ts.tail with
      | .error e => .error e
      | .ok (e, ts1) => .ok (.odd e, ts1)
    else
      match parseExpression decls f ts with
      | .error e => .error e
      | .ok (l, ts1) =>
        if (curTok ts1).symbol = .EQL ∨ (curTok ts1).symbol = .NEQ ∨
            (curTok ts1).symbol = .LESS ∨ (curTok ts1).symbol = .LEQ ∨
            (curTok ts1).symbol = .GTR ∨ (curTok ts1).symbol = .GEQ then
          match parseExpression decls f ts1.tail with
          | .error e => .error e
          | .ok (r, ts2) => .ok (.binary (curTok ts1).symbol l r, ts2)
        else .error (perr 20 ts1)

mutual

/-- `Parser.statement` from src/pl0/parser.py (this is the older version
under src/: its `call` branch consumes only the identifier and carries no
argument list). -/
def parseStatement (decls : Decls) : Nat → List Token → Except PErr (Option Node × List Token)
  | 0, _ => .error fuelErr
  | f + 1, ts =>
    if (curTok ts).symbol = .IDENT then
      match declLookup decls (tokvalStr (curTok ts).value) with
      | none => .error (perr 11 ts)
      | some d =>
        if d = .VAR then
          match pmatch .BECOMES 13 ts.tail with
          | .error e => .error e
          | .ok (_, ts2) =>
            match parseExpression decls f ts2 with
            | .error e => .error e
            | .ok (e, ts3) =>
              .ok (some (.assignment (tokvalStr (curTok ts).value) e), ts3)
        else .error (perr 12 ts)
    else if (curTok ts).symbol = .CALL then
      match pmatch .IDENT 14 ts.tail with
      | .error e => .error e
      | .ok (v, ts2) =>
        match declLookup decls (tokvalStr v) with
        | none => .error (perr 11 ts2)
        | some d =>
          if d = .PROC then .ok (some (.call (tokvalStr v) []), ts2)
          else .error (perr 15 ts2)
    else if (curTok ts).symbol = .IF then
      match parseCondition decls f ts.tail with
      | .error e => .error e
      | .ok (cond, ts1) =>
        match pmatch .THEN 16 ts1 with
        | .error e => .error e
        | .ok (_, ts2) =>
          match parseStatement decls f ts2 with
          | .error e => .error e
          | .ok (b, ts3) => .ok (some (.ifStmt cond b), ts3)
    else if (curTok ts).symbol = .BEGIN then
      match parseStatement decls f ts.tail with
      | .error e => .error e
      | .ok (s0, ts1) =>
        match parseStmtSeq decls f ts1 with
        | .error e => .error e
        | .ok (rest, ts2) =>
          match pmatch .END 17 ts2 with
          | .error e => .error e
          | .ok (_, ts3) => .ok (some (.block (s0 :: rest.map some)), ts3)
    else if (curTok ts).symbol = .WHILE then
      match parseCondition decls f ts.tail with
      | .error e => .error e
      | .ok (cond, ts1) =>
        match pmatch .DO 18 ts1 with
        | .error e => .error e
        | .ok (_, ts2) =>
          match parseStatement decls f ts2 with
          | .error e => .error e
          | .ok (b, ts3) => .ok (some (.loop cond b), ts3)
    else if (curTok ts).symbol = .WRITE then
      match parseExpression decls f ts.tail with
      | .error e => .error e
      | .ok (e, ts1) => .ok (some (.output e), ts1)
    else if (curTok ts).symbol = .DEBUG then .ok (some .debug, ts.tail)
    else .ok (none, ts)

/-- The `while SEMICOLON` loop inside the `begin` branch of
`Parser.statement`; only non-None statements are appended
(`if statement: statements.append(statement)`). -/
def parseStmtSeq (decls : Decls) : Nat → List Token → Except PErr (List Node × List Token)
  | 0, _ => .error fuelErr
  | f + 1, ts =>
    if (curTok ts).symbol = .SEMICOLON then
      match parseStatement decls f ts.tail with
      | .error e => .error e
      | .ok (os, ts1) =>
        match parseStmtSeq decls f ts1 with
        | .error e => .error e
        | .ok (l, ts2) =>
          match os with
          | some s => .ok (s :: l, ts2)
          | none => .ok (l, ts2)
    else .ok ([], ts)

end

/-- `Parser.const_declaration`: ident, `=`, number; records the name as
CONST in the declaration table. -/
def parseConstDecl (decls : Decls) (ts : List Token) :
    Except PErr (Node × Decls × List Token) :=
  match pmatch .IDENT 4 ts with
  | .error e => .error e
  | .ok (v, ts1) =>
    match pmatch .EQL 3 ts1 with
    | .error e => .error e
    | .ok (_, ts2) =>
      match pmatch .NUMBER 2 ts2 with
      | .error e => .error e
      | .ok (nv, ts3) =>
        .ok (.constDecl (tokvalStr v) (tokvalInt nv), (tokvalStr v, .CONST) :: decls, ts3)

/-- `Parser.var_declaration`: ident; records the name as VAR. -/
def parseVarDecl (decls : Decls) (ts : List Token) :
    Except PErr (Node × Decls × List Token) :=
  match pmatch .IDENT 4 ts with
  | .error e => .error e
  | .ok (v, ts1) => .ok (.varDecl (tokvalStr v), (tokvalStr v, .VAR) :: decls, ts1)

/-- The `while COMMA` loop of the const section of `Parser.block`. -/
def parseConstMore : Nat → Decls → List Token → Except PErr (List Node × Decls × List Token)
  | 0, _, _ => .error fuelErr
  | f + 1, decls, ts =>
    if (curTok ts).symbol = .COMMA then
      match parseConstDecl decls ts.tail with
      | .error e => .error e
      | .ok (d, decls1, ts1) =>
        match parseConstMore f decls1 ts1 with
        | .error e => .error e
        | .ok (l, decls2, ts2) => .ok (d :: l, decls2, ts2)
    else .ok ([], decls, ts)

/-- The `while COMMA` loop of the var section of `Parser.block`. -/
def parseVarMore : Nat → Decls → List Token → Except PErr (List Node × Decls × List Token)
  | 0, _, _ => .error fuelErr
  | f + 1, decls, ts =>
    if (curTok ts).symbol = .COMMA then
      match parseVarDecl decls ts.tail with
      | .error e => .error e
      | .ok (d, decls1, ts1) =>
        match parseVarMore f decls1 ts1 with
        | .error e => .error e
        | .ok (l, decls2, ts2) => .ok (d :: l, decls2, ts2)
    else .ok ([], decls, ts)

mutual

/-- The `while PROC` loop of `Parser.block`: the procedure name is
recorded as PROC before its body block is parsed. -/
def parseProcLoop : Nat → Decls → List Token → Except PErr (List Node × Decls × List Token)
  | 0, _, _ => .error fuelErr
  | f + 1, decls, ts =>
    if (curTok ts).symbol = .PROC then
      match pmatch .IDENT 4 ts.tail with
      | .error e => .error e
      | .ok (v, ts1) =>
        match pmatch .SEMICOLON 5 ts1 with
        | .error e => .error e
        | .ok (_, ts2) =>
          match parseBlock f ((tokvalStr v, Symbol.PROC) :: decls) ts2 with
          | .error e => .error e
          | .ok (inner, decls2, ts3) =>
            match pmatch .SEMICOLON 5 ts3 with
            | .error e => .error e
            | .ok (_, ts4) =>
              match parseProcLoop f decls2 ts4 with
              | .error e => .error e
              | .ok (l, decls3, ts5) =>
                .ok (.procedure (tokvalStr v) [] inner :: l, decls3, ts5)
    else .ok ([], decls, ts)

/-- `Parser.block`: optional const section, optional var section, the
procedure loop, and a final (possibly empty) statement which is appended
only when it is not None. -/
def parseBlock : Nat → Decls → List Token → Except PErr (List Node × Decls × List Token)
  | 0, _, _ => .error fuelErr
  | f + 1, decls, ts =>
    match ((if (curTok ts).symbol = .CONST then
        match parseConstDecl decls ts.tail with
        | .error e => .error e
        | .ok (d0, decls1, ts1) =>
          match parseConstMore f decls1 ts1 with
          | .error e => .error e
          | .ok (dl, decls2, ts2) =>
            match pmatch .SEMICOLON 5 ts2 with
            | .error e => .error e
            | .ok (_, ts3) => .ok (d0 :: dl, decls2, ts3)
      else .ok ([], decls, ts)) : Except PErr (List Node × Decls × List Token)) with
    | .error e => .error e
    | .ok (consts, declsA, tsA) =>
      match ((if (curTok tsA).symbol = .VAR then
          match parseVarDecl declsA tsA.tail with
          | .error e => .error e
          | .ok (d0, decls1, ts1) =>
            match parseVarMore f decls1 ts1 with
            | .error e => .error e
            | .ok (dl, decls2, ts2) =>
              match pmatch .SEMICOLON 5 ts2 with
              | .error e => .error e
              | .ok (_, ts3) => .ok (d0 :: dl, decls2, ts3)
        else .ok ([], declsA, tsA)) : Except PErr (List Node × Decls × List Token)) with
      | .error e => .error e
      | .ok (vars, declsB, tsB) =>
        match parseProcLoop f declsB tsB with
        | .error e => .error e
        | .ok (procs, declsC, tsC) =>
          match parseStatement declsC f tsC with
          | .error e => .error e
          | .ok (os, tsD) =>
            match os with
            | some s => .ok (consts ++ vars ++ procs ++ [s], declsC, tsD)
            | none => .ok (consts ++ vars ++ procs, declsC, tsD)

end

/-- `Parser.program`: a block followed by a period (error 9 when missing),
starting from an empty declaration table. -/
def parseProgram (f : Nat) (ts : List Token) : Except PErr (List Node) :=
  match parseBlock f [] ts with
  | .error e => .error e
  | .ok (bs, _, ts1) =>
    match pmatch .PERIOD 9 ts1 with
    | .error e => .error e
    | .ok _ => .ok bs

/-- Modelled from the spec: the `{ "," expression }` loop of the newer
parser's call-argument list.  The argument-list grammar
`"call" ident [ "(" expression { "," expression } ")" ]` appears in the
spec and is exercised by src/tests/test_parser.py and consumed by
`Generator.visit_call` in src/pl0/generators/codegen.py, but the parser
file under src/ predates it. -/
def parseArgsMore (decls : Decls) : Nat → List Token → List Node → Except PErr (List Node × List Token)
  | 0, _, _ => .error fuelErr
  | f + 1, ts, acc =>
    if (curTok ts).symbol = .COMMA then
      match parseExpression decls f ts.tail with
      | .error e => .error e
      | .ok (e, ts1) => parseArgsMore decls f ts1 (acc ++ [e])
    else .ok (acc, ts)

/-- Modelled from the spec: the newer parser's `call` statement branch
with an optional parenthesized argument list
(`"call" ident [ "(" expression { "," expression } ")" ]`); without a
list the Call node carries an empty `arguments` list, as the repository's
tests record (`{"type": "Call", "name": "foo", "arguments": []}`). -/
def parseCallStmt (decls : Decls) : Nat → List Token → Except PErr (Option Node × List Token)
  | 0, _ => .error fuelErr
  | f + 1, ts =>
    if (curTok ts).symbol = .CALL then
      match pmatch .IDENT 14 ts.tail with
      | .error e => .error e
      | .ok (v, ts2) =>
        match declLookup decls (tokvalStr v) with
        | none => .error (perr 11 ts2)
        | some d =>
          if d = .PROC then
            if (curTok ts2).symbol = .LPAREN then
              match parseExpression decls f ts2.tail with
              | .error e => .error e
              | .ok (e0, ts3) =>
                match parseArgsMore decls f ts3 [e0] with
                | .error e => .error e
                | .ok (args, ts4) =>
                  match pmatch .RPAREN 22 ts4 with
                  | .error e => .error e
                  | .ok (_, ts5) => .ok (some (.call (tokvalStr v) args), ts5)
            else .ok (some (.call (tokvalStr v) []), ts2)
          else .error (perr 15 ts2)
    else .ok (none, ts)

/-- A token with no payload at line 0, column 0 (positions are irrelevant
to the structural parsing claims). -/
def mkTok (s : Symbol) : Token := ⟨s, .none, 0, 0⟩

/-- An IDENT token with the given name. -/
def mkIdentTok (name : String) : Token := ⟨.IDENT, .str name, 0, 0⟩

/-- The token stream of `, e2 , e3 ... ) tail` given per-argument token
lists: the continuation following each parsed argument. -/
def joinArgs : List (List Token × Node) → List Token → List Token
  | [], tail => mkTok .RPAREN :: tail
  | (ts, _) :: rest, tail => mkTok .COMMA :: (ts ++ joinArgs rest tail)

/-- The full token stream of `call p ( e1 , ... , en ) tail` (or
`call p tail` when the argument list is empty). -/
def callTokens (p : String) (args : List (List Token × Node)) (tail : List Token) : List Token :=
  mkTok .CALL :: mkIdentTok p ::
    (match args with
     | [] => tail
     | (ts0, _) :: rest => mkTok .LPAREN :: (ts0 ++ joinArgs rest tail))

/-- `OP_CODE` from src/pl0/constants.py.  The `DET` constructor is
modelled from the spec: it is absent from src/pl0/constants.py, but the
spec lists it (`DET` pops one word, caller-side parameter cleanup) and
`Generator.visit_call` in src/pl0/generators/codegen.py emits
`OP_CODE.DET`. -/
inductive OpCode where
  | LIT | OPR | LOD | STO | CAL | INT | JMP | JPC | DET
  deriving DecidableEq

/-- `OPERATION.RETURN` from src/pl0/constants.py. -/
def OPERATION.RETURN : Int := 0

/-- `OPERATION.NEGATE` -/
def OPERATION.NEGATE : Int := 1

/-- `OPERATION.ADD` -/
def OPERATION.ADD : Int := 2

/-- `OPERATION.SUB` -/
def OPERATION.SUB : Int := 3

/-- `OPERATION.MULT` -/
def OPERATION.MULT : Int := 4

/-- `OPERATION.DIV` -/
def OPERATION.DIV : Int := 5

/-- `OPERATION.ODD` (there is no operation 7 in the source enumeration) -/
def OPERATION.ODD : Int := 6

/-- `OPERATION.EQUAL` -/
def OPERATION.EQUAL : Int := 8

/-- `OPERATION.NOT_EQUAL` -/
def OPERATION.NOT_EQUAL : Int := 9

/-- `OPERATION.LESS` -/
def OPERATION.LESS : Int := 10

/-- `OPERATION.GREATER_EQUAL` -/
def OPERATION.GREATER_EQUAL : Int := 11

/-- `OPERATION.GREATER` -/
def OPERATION.GREATER : Int := 12

/-- `OPERATION.LESS_EQUAL` -/
def OPERATION.LESS_EQUAL : Int := 13

/-- `OPERATION.WRITE` -/
def OPERATION.WRITE : Int := 14

/-- `OPERATION.DEBUG` -/
def OPERATION.DEBUG : Int := 15

/-- One VM instruction `[op, level, value]` as appended by
`Generator.generate`. -/
structure Instr where
  op : OpCode
  level : Int
  value : Int
  deriving DecidableEq

/-- A binding in the generator's layered scope (`self.scope`, a ChainMap):
Const carries a value, Var a level and offset (parameters are Var bindings
with negative offsets), Procedure a level and an address that is filled in
by the first fixup of its body. -/
inductive Binding where
  | constB (value : Int)
  | varB (level : Nat) (offset : Int)
  | procB (level : Nat) (address : Option Int)
  deriving DecidableEq

/-- The ChainMap: newest map first. -/
abbrev Scope := List (List (String × Binding))

/-- Setting a key in one dict (replaces any previous entry). -/
def mapSet (m : List (String × Binding)) (k : String) (v : Binding) :
    List (String × Binding) :=
  (k, v) :: m.filter (fun p => p.1 != k)

/-- `self.scope[name] = value`: ChainMap assignment writes the first map. -/
def scopeSet (sc : Scope) (k : String) (v : Binding) : Scope :=
  match sc with
  | [] => [[(k, v)]]
  | m :: rest => mapSet m k v :: rest

/-- Lookup in one dict. -/
def mapLookup : List (String × Binding) → String → Option Binding
  | [], _ => none
  | (a, b) :: rest, k => if a = k then some b else mapLookup rest k

/-- `self.scope[name]`: ChainMap lookup searches the maps front to back. -/
def scopeLookup : Scope → String → Option Binding
  | [], _ => none
  | m :: rest, k =>
    match mapLookup m k with
    | some b => some b
    | none => scopeLookup rest k

/-- `len(self.scope.maps) - 1`, the current lexical level. -/
def curLevel (sc : Scope) : Nat := sc.length - 1

/-- `Generator.declaration_count`: the number of Var bindings in the
innermost map (parameters are Var bindings, so they are counted too). -/
def declCount (sc : Scope) : Nat :=
  (sc.headD []).countP (fun p =>
    match p.2 with
    | .varB _ _ => true
    | _ => false)

/-- `self.code[idx][2] = v`: overwrite the value operand of an existing
instruction (the index is always in range in the source; out of range is
left unchanged here, where Python would raise IndexError). -/
def setInstrValue (c : List Instr) (i : Nat) (v : Int) : List Instr :=
  match c.get? i with
  | some ins => c.set i {ins with value := v}
  | none => c

/-- `Generator.fixup`: point the placeholder at the current code index and
emit `INT 0 (declaration_count + 3)` (3 slots for SL, DL, RA). -/
def fixupCode (c : List Instr) (jmpIdx : Nat) (cnt : Nat) : List Instr :=
  setInstrValue c jmpIdx (c.length : Int) ++ [⟨.INT, 0, (cnt : Int) + 3⟩]

/-- `proc_declaration["address"] = ...`: the procedure dict recorded in the
enclosing scope (layer 1 while the procedure body is being generated) is
mutated in place through the alias held by `visit_procedure`. -/
def scopeSetAddr1 (sc : Scope) (k : String) (addr : Int) : Scope :=
  match sc with
  | m0 :: m1 :: rest =>
    match mapLookup m1 k with
    | some (.procB lvl _) => m0 :: mapSet m1 k (.procB lvl (some addr)) :: rest
    | _ => sc
  | _ => sc

/-- `Generator.should_fixup`: every node whose type is not
Const/Var/Procedure is executable. -/
def shouldFixup (n : Node) : Bool :=
  match n with
  | .constDecl _ _ => false
  | .varDecl _ => false
  | .procedure _ _ _ => false
  | _ => true

/-- The parameter-binding loop of `Generator.visit_procedure`
(`enumerate(node["parameters"], start=1)`, offset `-i`).  Parameters are
Var nodes; any other node shape would fail key lookups in the source. -/
def bindParams (sc : Scope) : List Node → Nat → Option Scope
  | [], _ => some sc
  | .varDecl name :: rest, i =>
    bindParams (scopeSet sc name (.varB (curLevel sc) (-(i : Int)))) rest (i + 1)
  | _, _ => none

/-- The operator dispatch of `Generator.visit_binary` (an if/elif chain
with no else: an unrecognized operator emits nothing). -/
def binaryOpInstr (op : Symbol) : List Instr :=
  if op = .PLUS then [⟨.OPR, 0, OPERATION.ADD⟩]
  else if op = .MINUS then [⟨.OPR, 0, OPERATION.SUB⟩]
  else if op = .TIMES then [⟨.OPR, 0, OPERATION.MULT⟩]
  else if op = .SLASH then [⟨.OPR, 0, OPERATION.DIV⟩]
  else if op = .EQL then [⟨.OPR, 0, OPERATION.EQUAL⟩]
  else if op = .NEQ then [⟨.OPR, 0, OPERATION.NOT_EQUAL⟩]
  else if op = .LESS then [⟨.OPR, 0, OPERATION.LESS⟩]
  else if op = .GEQ then [⟨.OPR, 0, OPERATION.GREATER_EQUAL⟩]
  else if op = .GTR then [⟨.OPR, 0, OPERATION.GREATER⟩]
  else if op = .LEQ then [⟨.OPR, 0, OPERATION.LESS_EQUAL⟩]
  else []

mutual

/-- `Generator.visit` dispatch with the per-node visitors of
src/pl0/generators/codegen.py.  The state is the scope chain and the code
list; `none` stands for the Python exceptions (KeyError on a missing name
or missing procedure address, and visiting a `None` statement). -/
def genVisit (sc : Scope) (c : List Instr) : Node → Option (Scope × List Instr)
  | .constDecl name v => some (scopeSet sc name (.constB v), c)
  | .varDecl name =>
    some (scopeSet sc name (.varB (curLevel sc) ((declCount sc : Int) + 3)), c)
  | .procedure name params blocks =>
    match bindParams ([] :: scopeSet sc name (.procB (curLevel sc) none)) params 1 with
    | none => none
    | some sc2 =>
      match genProcBlocks name c.length sc2 (c ++ [⟨.JMP, 0, 0⟩]) blocks with
      | none => none
      | some (sc3, c2) => some (sc3.tail, c2 ++ [⟨.OPR, 0, OPERATION.RETURN⟩])
  | .assignment name value =>
    match scopeLookup sc name with
    | none => none
    | some b =>
      match genVisit sc c value with
      | none => none
      | some (sc1, c1) =>
        match b with
        | .varB lvl off =>
          some (sc1, c1 ++ [⟨.STO, (curLevel sc : Int) - (lvl : Int), off⟩])
        | _ => none
  | .call name args =>
    match genVisitRev sc c args with
    | none => none
    | some (sc1, c1) =>
      match scopeLookup sc1 name with
      | some (.procB lvl (some addr)) =>
        some (sc1, c1 ++ [⟨.CAL, (curLevel sc1 : Int) - (lvl : Int), addr⟩]
          ++ List.replicate args.length ⟨.DET, 0, 0⟩)
      | _ => none
  | .block stmts => genVisitOptList sc c stmts
  | .ifStmt cond none =>
    (match genVisit sc c cond with
     | none => none
     | some _ => none)
  | .ifStmt cond (some b) =>
    match genVisit sc c cond with
    | none => none
    | some (sc1, c1) =>
      match genVisit sc1 (c1 ++ [⟨.JPC, 0, 0⟩]) b with
      | none => none
      | some (sc2, c3) => some (sc2, setInstrValue c3 c1.length (c3.length : Int))
  | .loop cond none =>
    (match genVisit sc c cond with
     | none => none
     | some _ => none)
  | .loop cond (some b) =>
    match genVisit sc c cond with
    | none => none
    | some (sc1, c1) =>
      match genVisit sc1 (c1 ++ [⟨.JPC, 0, 0⟩]) b with
      | none => none
      | some (sc2, c3) =>
        some (sc2, setInstrValue (c3 ++ [⟨.JMP, 0, (c.length : Int)⟩])
          c1.length ((c3.length : Int) + 1))
  | .output v =>
    match genVisit sc c v with
    | none => none
    | some (sc1, c1) => some (sc1, c1 ++ [⟨.OPR, 0, OPERATION.WRITE⟩])
  | .debug => some (sc, c ++ [⟨.OPR, 0, OPERATION.DEBUG⟩])
  | .binary op l r =>
    match genVisit sc c l with
    | none => none
    | some (sc1, c1) =>
      match genVisit sc1 c1 r with
      | none => none
      | some (sc2, c2) => some (sc2, c2 ++ binaryOpInstr op)
  | .unary _ r =>
    match genVisit sc c r with
    | none => none
    | some (sc1, c1) => some (sc1, c1 ++ [⟨.OPR, 0, OPERATION.NEGATE⟩])
  | .odd e =>
    match genVisit sc c e with
    | none => none
    | some (sc1, c1) => some (sc1, c1 ++ [⟨.OPR, 0, OPERATION.ODD⟩])
  | .identifier name =>
    match scopeLookup sc name with
    | none => none
    | some (.constB v) => some (sc, c ++ [⟨.LIT, 0, v⟩])
    | some (.varB lvl off) =>
      some (sc, c ++ [⟨.LOD, (curLevel sc : Int) - (lvl : Int), off⟩])
    | some (.procB _ _) => some (sc, c)
  | .number v => some (sc, c ++ [⟨.LIT, 0, v⟩])
  | .grouping e => genVisit sc c e

/-- The body loop of `Generator.visit_procedure`: every executable block
runs `fixup` against the procedure's placeholder and (re)records the
procedure's address as the patched jump target. -/
def genProcBlocks (name : String) (jmpIdx : Nat) (sc : Scope) (c : List Instr) :
    List Node → Option (Scope × List Instr)
  | [] => some (sc, c)
  | n :: rest =>
    if shouldFixup n then
      match genVisit (scopeSetAddr1 sc name (c.length : Int))
          (fixupCode c jmpIdx (declCount sc)) n with
      | none => none
      | some (sc2, c2) => genProcBlocks name jmpIdx sc2 c2 rest
    else
      match genVisit sc c n with
      | none => none
      | some (sc2, c2) => genProcBlocks name jmpIdx sc2 c2 rest

/-- `Generator.visit_call`'s argument loop (`node["arguments"][::-1]`):
the arguments are visited last-to-first, so the first argument is pushed
last and ends up nearest the callee's base pointer. -/
def genVisitRev (sc : Scope) (c : List Instr) : List Node → Option (Scope × List Instr)
  | [] => some (sc, c)
  | n :: rest =>
    match genVisitRev sc c rest with
    | none => none
    | some (sc1, c1) => genVisit sc1 c1 n

/-- `Generator.visit_block`: visit the statements in order; a Python
`None` entry would crash the visitor's dispatch (`None["type"]`). -/
def genVisitOptList (sc : Scope) (c : List Instr) :
    List (Option Node) → Option (Scope × List Instr)
  | [] => some (sc, c)
  | some n :: rest =>
    match genVisit sc c n with
    | none => none
    | some (sc1, c1) => genVisitOptList sc1 c1 rest
  | none :: _ => none

end

/-- One step of the top-level loop of `Generator.generate_code`: an
executable node first runs `fixup` against the entry placeholder at index
0 (unconditionally: the loop has no resolved-yet check), then is visited. -/
def genTopStep (sc : Scope) (c : List Instr) (n : Node) : Option (Scope × List Instr) :=
  if shouldFixup n then genVisit sc (fixupCode c 0 (declCount sc)) n
  else genVisit sc c n

/-- The top-level loop of `Generator.generate_code`. -/
def genTopNodes (sc : Scope) (c : List Instr) : List Node → Option (Scope × List Instr)
  | [] => some (sc, c)
  | n :: rest =>
    match genTopStep sc c n with
    | none => none
    | some (sc1, c1) => genTopNodes sc1 c1 rest

/-- `Generator.generate_code`: emit the entry placeholder `JMP 0 0`, walk
the top-level nodes, and close with `OPR 0 RETURN`. -/
def generate_code (ast : List Node) : Option (List Instr) :=
  match genTopNodes [[]] [⟨.JMP, 0, 0⟩] ast with
  | none => none
  | some (_, c) => some (c ++ [⟨.OPR, 0, OPERATION.RETURN⟩])

/-- The operator dispatch of `PythonTranspiler.visit_binary` in
src/pl0/generators/py3.py (an if/elif chain with no else; note the LEQ
arm emits `" >= "`). -/
def pyBinOpStr (op : Symbol) : String :=
  if op = .PLUS then " + "
  else if op = .MINUS then " - "
  else if op = .TIMES then " * "
  else if op = .SLASH then " // "
  else if op = .EQL then " == "
  else if op = .NEQ then " != "
  else if op = .LESS then " < "
  else if op = .GEQ then " >= "
  else if op = .GTR then " > "
  else if op = .LEQ then " >= "
  else ""

/-- The expression fragment of `PythonTranspiler`: the text appended by
visiting an expression node (expression visitors write no indentation).
Statement-level nodes are rendered by the indentation-aware statement
visitors and are out of scope here (`none`). -/
def pyExpr : Node → Option String
  | .binary op l r =>
    match pyExpr l, pyExpr r with
    | some a, some b => some (a ++ pyBinOpStr op ++ b)
    | _, _ => none
  | .unary _ r =>
    match pyExpr r with
    | some b => some ("-" ++ b)
    | none => none
  | .odd e =>
    match pyExpr e with
    | some a => some (a ++ " % 2 == 1")
    | none => none
  | .identifier n => some n
  | .number v => some (toString v)
  | .grouping e =>
    match pyExpr e with
    | some a => some ("(" ++ a ++ ")")
    | none => none
  | _ => none

/-- Python list indexing with negative wrap-around, for the code fetch
`self.code[self.program]` (IndexError is `none`). -/
def pyGetI (l : List Instr) (i : Int) : Option Instr :=
  if 0 ≤ i then l.get? i.toNat
  else if 0 ≤ i + (l.length : Int) then l.get? (i + (l.length : Int)).toNat
  else none

/-- Pointwise update of the datastore function (one mutated cell of the
source's `self.datastore` list). -/
def updateF (f : Int → Int) (i v : Int) : Int → Int :=
  fun j => if j = i then v else f j

/-- The VM state: the `program`, `base` and `topstack` registers of
src/pl0/vm.py, the datastore, and the integers printed so far (one per
WRITE, each followed by a newline by `print`). -/
structure VMState where
  program : Int
  base : Int
  topstack : Int
  data : Int → Int
  output : List Int

/-- `VM.find_base`: follow the static-link chain `level` times (the
`while level > 0` loop runs no iterations for a non-positive level). -/
def findBase (data : Int → Int) (base : Int) (level : Int) : Int :=
  if h : 0 < level then findBase data (data base) (level - 1) else base
termination_by level.toNat
decreasing_by omega

/-- Membership in the binary-operator table `VM.OPERATION_MAP`. -/
def inOperationMap (v : Int) : Bool :=
  (v == OPERATION.ADD) || (v == OPERATION.SUB) || (v == OPERATION.MULT) ||
  (v == OPERATION.DIV) || (v == OPERATION.EQUAL) || (v == OPERATION.NOT_EQUAL) ||
  (v == OPERATION.LESS) || (v == OPERATION.LESS_EQUAL) || (v == OPERATION.GREATER) ||
  (v == OPERATION.GREATER_EQUAL)

/-- The operator applied through `VM.OPERATION_MAP`: Python `//` on ints
is floor division (`Int.fdiv`); the comparisons push 1 for true and 0 for
false (the source pushes Python booleans, which are the integers 1/0 in
every arithmetic context the machine uses them in). -/
def applyBinaryOp (v lhs rhs : Int) : Int :=
  if v = OPERATION.ADD then lhs + rhs
  else if v = OPERATION.SUB then lhs - rhs
  else if v = OPERATION.MULT then lhs * rhs
  else if v = OPERATION.DIV then Int.fdiv lhs rhs
  else if v = OPERATION.EQUAL then (if lhs = rhs then 1 else 0)
  else if v = OPERATION.NOT_EQUAL then (if lhs = rhs then 0 else 1)
  else if v = OPERATION.LESS then (if lhs < rhs then 1 else 0)
  else if v = OPERATION.LESS_EQUAL then (if lhs ≤ rhs then 1 else 0)
  else if v = OPERATION.GREATER then (if rhs < lhs then 1 else 0)
  else if v = OPERATION.GREATER_EQUAL then (if rhs ≤ lhs then 1 else 0)
  else 0

/-- `VM.perform_operation`: RETURN pops the frame; a mapped binary
operation pops rhs then lhs and pushes the result (division by zero is
fatal, `none`); NEGATE negates in place; ODD replaces the top with
`top % 2`; WRITE prints the top without popping; the final branch (DEBUG,
which only flips the interactive-debug flag, and any unknown operation)
leaves the state unchanged. -/
def performOperation (st : VMState) (v : Int) : Option VMState :=
  if v = OPERATION.RETURN then
    some {st with topstack := st.base - 1,
                  program := st.data (st.base - 1 + 3),
                  base := st.data (st.base - 1 + 2)}
  else if inOperationMap v then
    if v = OPERATION.DIV ∧ st.data st.topstack = 0 then none
    else
      some {st with topstack := st.topstack - 1,
                    data := updateF st.data (st.topstack - 1)
                      (applyBinaryOp v (st.data (st.topstack - 1)) (st.data st.topstack))}
  else if v = OPERATION.NEGATE then
    some {st with data := updateF st.data st.topstack (-(st.data st.topstack))}
  else if v = OPERATION.ODD then
    some {st with data := updateF st.data st.topstack (Int.emod (st.data st.topstack) 2)}
  else if v = OPERATION.WRITE then
    some {st with output := st.output ++ [st.data st.topstack]}
  else some st

/-- One iteration of the fetch-dispatch loop in `VM.interpret` of
src/pl0/vm.py: fetch at `program`, increment `program`, dispatch.  The
dispatch chain has no branch for any opcode other than
LIT/OPR/LOD/STO/CAL/INT/JMP/JPC, so a `DET` instruction falls through
with no effect beyond the fetch increment. -/
def vmStep (code : List Instr) (st : VMState) : Option VMState :=
  match pyGetI code st.program with
  | none => none
  | some ins =>
    match ins.op with
    | .LIT =>
      some {st with program := st.program + 1, topstack := st.topstack + 1,
                    data := updateF st.data (st.topstack + 1) ins.value}
    | .OPR => performOperation {st with program := st.program + 1} ins.value
    | .LOD =>
      some {st with program := st.program + 1, topstack := st.topstack + 1,
                    data := updateF st.data (st.topstack + 1)
                      (st.data (findBase st.data st.base ins.level + ins.value))}
    | .STO =>
      some {st with program := st.program + 1, topstack := st.topstack - 1,
                    data := updateF st.data (findBase st.data st.base ins.level + ins.value)
                      (st.data st.topstack)}
    | .CAL =>
      some {st with program := ins.value, base := st.topstack + 1,
                    data := updateF (updateF (updateF st.data
                        (st.topstack + 1) (findBase st.data st.base ins.level))
                        (st.topstack + 2) st.base)
                        (st.topstack + 3) (st.program + 1)}
    | .INT => some {st with program := st.program + 1, topstack := st.topstack + ins.value}
    | .JMP => some {st with program := ins.value}
    | .JPC =>
      if st.data st.topstack = 0 then
        some {st with program := ins.value, topstack := st.topstack - 1}
      else
        some {st with program := st.program + 1, topstack := st.topstack - 1}
    | .DET => some {st with program := st.program + 1}

/-- Modelled from the spec: one step of the VM extended with the `DET`
opcode (`sp -= 1`, removing one pushed argument after a CAL).  The VM
under src/pl0/vm.py predates DET and ignores it; the newer interpreter
that executes the generator's DET output is not under src/, so its DET
branch is taken from the spec, every other opcode behaving as in
`vmStep`. -/
def vmStepDET (code : List Instr) (st : VMState) : Option VMState :=
  match pyGetI code st.program with
  | none => none
  | some ins =>
    if ins.op = .DET then
      some {st with program := st.program + 1, topstack := st.topstack - 1}
    else vmStep code st

/-- Iterate `vmStep` a fixed number of times (raw instruction steps,
without the halt test in between). -/
def vmStepN (code : List Instr) : Nat → VMState → Option VMState
  | 0, st => some st
  | k + 1, st =>
    match vmStep code st with
    | none => none
    | some st1 => vmStepN code k st1

/-- The `while True` loop of `VM.interpret`: execute one instruction,
then break as soon as `program == 0` (fueled; `none` on a fatal error or
fuel exhaustion). -/
def vmRun (code : List Instr) : Nat → VMState → Option VMState
  | 0, _ => none
  | f + 1, st =>
    match vmStep code st with
    | none => none
    | some st1 => if st1.program = 0 then some st1 else vmRun code f st1

/-- The state set up at the top of `VM.interpret` on a fresh VM: the
registers reset (`topstack = -1`, `base = 0`, `program = 0`) and the
global frame's SL/DL/RA zeroed — on a fresh all-zero datastore. -/
def initVM : VMState := ⟨0, 0, -1, fun _ => 0, []⟩

/-- Code-prefix preservation: `c2` extends `c` without disturbing the
entries below `c`'s length (the visitors only append instructions or
patch slots at or above their entry index). -/
def PresCode (c c2 : List Instr) : Prop :=
  c.length ≤ c2.length ∧ ∀ i, i < c.length → c2.get? i = c.get? i

/-- The AST of `write 7 / 2` (as the parser produces it). -/
def div72ast : List Node := [.output (.binary .SLASH (.number 7) (.number 2))]

/-- The code the generator emits for `write 7 / 2.`. -/
def div72code : List Instr :=
  [⟨.JMP, 0, 1⟩, ⟨.INT, 0, 3⟩, ⟨.LIT, 0, 7⟩, ⟨.LIT, 0, 2⟩,
   ⟨.OPR, 0, 5⟩, ⟨.OPR, 0, 14⟩, ⟨.OPR, 0, 0⟩]

/-- A concrete VM state with -7 below 2 on top of the stack. -/
def divSt : VMState :=
  ⟨0, 0, 1, fun i => if i = 0 then -7 else if i = 1 then 2 else 0, []⟩

/-- What the empty program `"."` compiles to: the unpatched entry
placeholder followed by the final return. -/
def emptyProgCode : List Instr := [⟨.JMP, 0, 0⟩, ⟨.OPR, 0, 0⟩]

/-- The code state after the generator has processed one executable
top-level node (the entry placeholder patched to 1, INT, then the code of
`write 1`). -/
def c4WitCode : List Instr := [⟨.JMP, 0, 1⟩, ⟨.INT, 0, 3⟩, ⟨.LIT, 0, 1⟩, ⟨.OPR, 0, 14⟩]

/-- The state reached from `initVM` by executing `CAL 0 1`: the frame
cells written, base moved to the new frame, topstack unchanged. -/
def calWitSt : VMState :=
  {initVM with program := 1, base := initVM.topstack + 1,
               data := updateF (updateF (updateF initVM.data
                   (initVM.topstack + 1) (findBase initVM.data initVM.base 0))
                   (initVM.topstack + 2) initVM.base)
                   (initVM.topstack + 3) (initVM.program + 1)}

/-- C2.  The (spec-modelled) VM instruction set includes DET, and a
`DET 0 0` instruction pops exactly one word: the topstack register drops
by one while the base register, every datastore cell and the output are
untouched (the program counter advances by the ordinary fetch increment). -/
theorem det_pops_one_word (code : List Instr) (st st2 : VMState)
    (hfetch : pyGetI code st.program = some ⟨.DET, 0, 0⟩)
    (hstep : vmStepDET code st = some st2) :
    st2 = {st with program := st.program + 1, topstack := st.topstack - 1} := by
  unfold vmStepDET at hstep
  rw [hfetch] at hstep
  simp at hstep
  exact hstep.symm

/-- Witness for C2 at a concrete state. -/
theorem det_pops_one_word_witness :
    ∃ st2, vmStepDET [⟨.DET, 0, 0⟩] initVM = some st2 ∧
      st2 = {initVM with program := initVM.program + 1,
                         topstack := initVM.topstack - 1} :=
  ⟨_, rfl, det_pops_one_word [⟨.DET, 0, 0⟩] initVM _ rfl rfl⟩

/-- C6.  Executing `OPR l WRITE` prints the value at the top of the stack
(appends it to the output) and changes nothing else: topstack, base and
every datastore cell are exactly as before, the printed value staying on
the stack; only the ordinary fetch increment moves the program counter. -/
theorem write_pops_nothing (code : List Instr) (lv : Int) (st st2 : VMState)
    (hfetch : pyGetI code st.program = some ⟨.OPR, lv, OPERATION.WRITE⟩)
    (hstep : vmStep code st = some st2) :
    st2 = {st with program := st.program + 1,
                   output := st.output ++ [st.data st.topstack]} := by
  unfold vmStep at hstep
  rw [hfetch] at hstep
  simp only [performOperation, inOperationMap, OPERATION.RETURN, OPERATION.ADD,
    OPERATION.SUB, OPERATION.MULT, OPERATION.DIV, OPERATION.EQUAL,
    OPERATION.NOT_EQUAL, OPERATION.LESS, OPERATION.LESS_EQUAL, OPERATION.GREATER,
    OPERATION.GREATER_EQUAL, OPERATION.NEGATE, OPERATION.ODD, OPERATION.WRITE] at hstep
  norm_num at hstep
  exact hstep.symm

/-- Witness for C6 at a concrete state. -/
theorem write_pops_nothing_witness :
    ∃ st2, vmStep [⟨.OPR, 0, 14⟩] divSt = some st2 ∧
      st2 = {divSt with program := divSt.program + 1,
                        output := divSt.output ++ [divSt.data divSt.topstack]} :=
  ⟨_, rfl, write_pops_nothing [⟨.OPR, 0, 14⟩] 0 divSt _ rfl rfl⟩

/-- C5.  `OPR DIV` on a stack holding `a` below a nonzero `b` pops both
and pushes `Int.fdiv a b` — Python floor division, rounding toward
negative infinity — leaving base untouched and every cell except the
result slot unchanged; concretely `7 / 2 = 3` and `-7 / 2 = -4` (not
`-3`), and the compiled program `write 7 / 2.` prints `3`. -/
theorem div_rounds_toward_neg_infinity (code : List Instr) (lv a b : Int)
    (st st2 : VMState)
    (hfetch : pyGetI code st.program = some ⟨.OPR, lv, OPERATION.DIV⟩)
    (ha : st.data (st.topstack - 1) = a) (hb : st.data st.topstack = b)
    (hb0 : b ≠ 0)
    (hstep : vmStep code st = some st2) :
    (st2.topstack = st.topstack - 1 ∧
      st2.data (st.topstack - 1) = Int.fdiv a b ∧
      st2.base = st.base ∧ st2.program = st.program + 1 ∧
      ∀ i : Int, i ≠ st.topstack - 1 → st2.data i = st.data i) ∧
    Int.fdiv 7 2 = 3 ∧ Int.fdiv (-7) 2 = -4 ∧
    parseProgram 20 (tokenize "write 7 / 2.") = .ok div72ast ∧
    generate_code div72ast = some div72code ∧
    (vmRun div72code 10 initVM).map VMState.output = some [3] := by
  refine ⟨?_, by decide, by decide, by rfl, by rfl, by rfl⟩
  unfold vmStep at hstep
  rw [hfetch] at hstep
  simp only [performOperation, inOperationMap, OPERATION.RETURN, OPERATION.ADD,
    OPERATION.SUB, OPERATION.MULT, OPERATION.DIV, OPERATION.EQUAL,
    OPERATION.NOT_EQUAL, OPERATION.LESS, OPERATION.LESS_EQUAL, OPERATION.GREATER,
    OPERATION.GREATER_EQUAL] at hstep
  rw [hb] at hstep
  norm_num [hb0] at hstep
  subst hstep
  refine ⟨rfl, ?_, rfl, rfl, ?_⟩
  · simp only [updateF, applyBinaryOp, OPERATION.ADD, OPERATION.SUB,
      OPERATION.MULT, OPERATION.DIV, OPERATION.EQUAL, OPERATION.NOT_EQUAL,
      OPERATION.LESS, OPERATION.LESS_EQUAL, OPERATION.GREATER,
      OPERATION.GREATER_EQUAL]
    norm_num [ha, hb]
  · intro i hi
    simp only [updateF]
    rw [if_neg hi]

/-- Witness for C5: dividing -7 by 2 at a concrete state yields -4. -/
theorem div_rounds_toward_neg_infinity_witness :
    ∃ st2, vmStep [⟨.OPR, 0, 5⟩] divSt = some st2 ∧
      st2.topstack = divSt.topstack - 1 ∧
      st2.data (divSt.topstack - 1) = Int.fdiv (-7) 2 := by
  refine ⟨_, rfl, ?_, ?_⟩
  · exact (div_rounds_toward_neg_infinity [⟨.OPR, 0, 5⟩] 0 (-7) 2 divSt _
      rfl rfl rfl (by decide) rfl).1.1
  · exact (div_rounds_toward_neg_infinity [⟨.OPR, 0, 5⟩] 0 (-7) 2 divSt _
      rfl rfl rfl (by decide) rfl).1.2.1

/-- C9.  The fetch-execute loop halts after a tick exactly when the just
executed instruction leaves `program = 0`, whatever its opcode (third and
fourth conjuncts); the empty program `"."` parses to the empty AST,
compiles to the unpatched placeholder `JMP 0 0` followed by `OPR 0
RETURN`, and the VM halts on the very first tick (fuel 1 suffices) by
executing that JMP at index 0, never reaching the RETURN (no output, and
the final state is the initial one with the jump taken). -/
theorem vm_halts_iff_pc_zero :
    parseProgram 5 (tokenize ".") = .ok [] ∧
    generate_code [] = some emptyProgCode ∧
    (∀ (f : Nat) (code : List Instr) (st st1 : VMState),
      vmStep code st = some st1 → st1.program = 0 →
      vmRun code (f + 1) st = some st1) ∧
    (∀ (f : Nat) (code : List Instr) (st st1 : VMState),
      vmStep code st = some st1 → st1.program ≠ 0 →
      vmRun code (f + 1) st = vmRun code f st1) ∧
    pyGetI emptyProgCode 0 = some ⟨.JMP, 0, 0⟩ ∧
    vmRun emptyProgCode 1 initVM = some {initVM with program := 0} ∧
    ({initVM with program := 0} : VMState).output = [] := by
  refine ⟨rfl, rfl, ?_, ?_, rfl, rfl, rfl⟩
  · intro f code st st1 h h0
    simp [vmRun, h, h0]
  · intro f code st st1 h h0
    simp [vmRun, h, h0]

/-- Witness for C9: the halt-on-zero-pc conjunct applied to the first
tick of the compiled empty program, with spare fuel. -/
theorem vm_halts_iff_pc_zero_witness :
    vmRun emptyProgCode 4 initVM = some {initVM with program := 0} :=
  vm_halts_iff_pc_zero.2.2.1 3 emptyProgCode initVM {initVM with program := 0} rfl rfl

/-- Updating three distinct cells leaves every other cell unchanged. -/
theorem updateF_ne3 {f : Int → Int} {i1 v1 i2 v2 i3 v3 i : Int}
    (h1 : i ≠ i1) (h2 : i ≠ i2) (h3 : i ≠ i3) :
    updateF (updateF (updateF f i1 v1) i2 v2) i3 v3 i = f i := by
  simp [updateF, h1, h2, h3]

/-- C3.  A CAL from a state with base `b` and topstack `s` writes only the
three frame cells `s+1..s+3` (everything below `s+1` untouched, topstack
unchanged, new base `s+1`), and when the callee's matching `OPR RETURN`
executes from a reachable state whose base is still `s+1`, whose
dynamic-link cell `s+2` still holds `b`, and whose cells below `s+1-n`
(below the `n` pushed arguments) are unchanged — the side conditions that
"no STO into outer frames" guarantees — the return restores base `b` and
topstack `s` exactly, and the pair leaves the cells below `s+1-n`
unchanged. -/
theorem cal_return_frame_discipline (code : List Instr) (l a lr : Int)
    (st st1 st2 st3 : VMState) (k n : Nat)
    (hfetch : pyGetI code st.program = some ⟨.CAL, l, a⟩)
    (hcal : vmStep code st = some st1)
    (hrun : vmStepN code k st1 = some st2)
    (hnohalt : ∀ j, j ≤ k → ∀ stj, vmStepN code j st1 = some stj → stj.program ≠ 0)
    (hbp : st2.base = st.topstack + 1)
    (hDL : st2.data (st.topstack + 2) = st.base)
    (hbelow : ∀ i : Int, i < st.topstack + 1 - (n : Int) → st2.data i = st.data i)
    (hret : pyGetI code st2.program = some ⟨.OPR, lr, 0⟩)
    (hretstep : vmStep code st2 = some st3) :
    st1.topstack = st.topstack ∧ st1.base = st.topstack + 1 ∧
    (∀ i : Int, i < st.topstack + 1 → st1.data i = st.data i) ∧
    st3.base = st.base ∧ st3.topstack = st.topstack ∧
    (∀ i : Int, i < st.topstack + 1 - (n : Int) → st3.data i = st.data i) := by
  unfold vmStep at hcal hretstep
  rw [hfetch] at hcal
  rw [hret] at hretstep
  simp only [Option.some.injEq] at hcal
  simp only [performOperation, OPERATION.RETURN, if_pos, Option.some.injEq] at hretstep
  subst hcal
  subst hretstep
  refine ⟨rfl, rfl, ?_, ?_, ?_, ?_⟩
  · intro i hi
    exact updateF_ne3 (by omega) (by omega) (by omega)
  · show st2.data (st2.base - 1 + 2) = st.base
    have h2 : st2.base - 1 + 2 = st.topstack + 2 := by rw [hbp]; ring
    rw [h2]
    exact hDL
  · show st2.base - 1 = st.topstack
    rw [hbp]
    ring
  · intro i hi
    exact hbelow i hi

/-- Witness for C3: a one-instruction call that immediately returns
(`CAL 0 1; OPR 0 RETURN`), with `k = 0` intermediate steps and no
arguments. -/
theorem cal_return_frame_discipline_witness :
    ∃ st3, vmStep [⟨.CAL, 0, 1⟩, ⟨.OPR, 0, 0⟩] initVM = some calWitSt ∧
      vmStep [⟨.CAL, 0, 1⟩, ⟨.OPR, 0, 0⟩] calWitSt = some st3 ∧
      st3.base = initVM.base ∧ st3.topstack = initVM.topstack := by
  have hno : ∀ j, j ≤ 0 → ∀ stj,
      vmStepN [(⟨.CAL, 0, 1⟩ : Instr), ⟨.OPR, 0, 0⟩] j calWitSt = some stj →
      stj.program ≠ 0 := by
    intro j hj stj hstj
    have hj0 : j = 0 := Nat.le_zero.mp hj
    subst hj0
    simp only [vmStepN] at hstj
    rw [← Option.some.inj hstj]
    decide
  have hbel : ∀ i : Int, i < initVM.topstack + 1 - ((0 : Nat) : Int) →
      calWitSt.data i = initVM.data i := by
    intro i hi
    simp only [calWitSt]
    exact updateF_ne3 (by omega) (by omega) (by omega)
  refine ⟨_, rfl, rfl, ?_, ?_⟩
  · exact (cal_return_frame_discipline [⟨.CAL, 0, 1⟩, ⟨.OPR, 0, 0⟩] 0 1 0
      initVM calWitSt calWitSt _ 0 0 rfl rfl rfl hno rfl rfl hbel rfl rfl).2.2.2.1
  · exact (cal_return_frame_discipline [⟨.CAL, 0, 1⟩, ⟨.OPR, 0, 0⟩] 0 1 0
      initVM calWitSt calWitSt _ 0 0 rfl rfl rfl hno rfl rfl hbel rfl rfl).2.2.2.2.1

/-- Unfolding equation for `genVisit` on a Binary node (the compiler of
the nested-inductive recursion does not generate equation lemmas; the
equation holds by definitional unfolding). -/
theorem genVisit_binary (sc : Scope) (c : List Instr) (op : Symbol) (l r : Node) :
    genVisit sc c (.binary op l r) =
      match genVisit sc c l with
      | none => none
      | some (sc1, c1) =>
        match genVisit sc1 c1 r with
        | none => none
        | some (sc2, c2) => some (sc2, c2 ++ binaryOpInstr op) := rfl

/-- C8.  A Binary node with operator LEQ (≤) is rendered by the Python
transpiler with the operator text `" >= "` — the mis-mapping the spec
reports — while the VM back end emits `OPR 0 LESS_EQUAL` for the same
node: whatever code its operands produce, the instruction list ends with
`OPR 0 LESS_EQUAL`. -/
theorem leq_transpiled_as_ge (l r : Node) (a b : String)
    (hl : pyExpr l = some a) (hr : pyExpr r = some b) :
    pyExpr (.binary .LEQ l r) = some (a ++ " >= " ++ b) ∧
    ∀ sc c sc2 c2, genVisit sc c (.binary .LEQ l r) = some (sc2, c2) →
      c2.getLast? = some ⟨.OPR, 0, OPERATION.LESS_EQUAL⟩ := by
  constructor
  · simp [pyExpr, hl, hr, pyBinOpStr]
  · intro sc c sc2 c2 h
    rw [genVisit_binary] at h
    cases h1 : genVisit sc c l with
    | none => rw [h1] at h; simp at h
    | some p1 =>
      obtain ⟨sc1, c1⟩ := p1
      rw [h1] at h
      dsimp only at h
      cases h2 : genVisit sc1 c1 r with
      | none => rw [h2] at h; simp at h
      | some p2 =>
        obtain ⟨sc2x, c2x⟩ := p2
        rw [h2] at h
        dsimp only at h
        simp only [Option.some.injEq, Prod.mk.injEq] at h
        obtain ⟨hsc, hc⟩ := h
        rw [← hc]
        have hop : binaryOpInstr .LEQ = [⟨.OPR, 0, OPERATION.LESS_EQUAL⟩] := rfl
        rw [hop]
        exact List.getLast?_concat _

/-- Witness for C8 on `a <= 4` with `a` a level-0 variable. -/
theorem leq_transpiled_as_ge_witness :
    pyExpr (.binary .LEQ (.identifier "a") (.number 4)) = some ("a" ++ " >= " ++ "4") ∧
    ([⟨.LOD, 0, 3⟩, ⟨.LIT, 0, 4⟩, ⟨.OPR, 0, OPERATION.LESS_EQUAL⟩] : List Instr).getLast?
      = some ⟨.OPR, 0, OPERATION.LESS_EQUAL⟩ := by
  constructor
  · exact (leq_transpiled_as_ge (.identifier "a") (.number 4) "a" "4" rfl rfl).1
  · exact (leq_transpiled_as_ge (.identifier "a") (.number 4) "a" "4" rfl rfl).2
      [[("a", .varB 0 3)]] [] _ _ rfl

/-- C7.  The lexer never fails: any character outside the recognized
starters lexes to a NULL token (first conjunct, the source's final
`else`); lexing `"4 ~ 3"` yields NUMBER, NULL (for `~`), NUMBER; and the
condition rule on that stream raises exactly error code 20 ("Relational
operator expected") at the NULL token's position. -/
theorem tilde_condition_error_20 :
    (∀ c : Char, recognizedChar c = false →
      getToken 1 0 [c] = (⟨.NULL, .none, 1, 1⟩, 1, 1, [])) ∧
    tokenize "4 ~ 3" = [⟨.NUMBER, .int 4, 1, 1⟩, ⟨.NULL, .none, 1, 3⟩,
      ⟨.NUMBER, .int 3, 1, 5⟩] ∧
    parseCondition [] 9 (tokenize "4 ~ 3") = .error ⟨20, 1, 3⟩ := by
  refine ⟨?_, rfl, rfl⟩
  intro c h
  simp only [recognizedChar, Bool.or_eq_false_iff, decide_eq_false_iff_not,
    and_assoc] at h
  obtain ⟨ha, hd, h1, h2, h3, h4, h5, h6, h7, h8, h9, h10, h11, h12, h13,
    h14, h15, h16, h17⟩ := h
  simp [getToken, ha, hd, h1, h2, h3, h4, h5, h6, h7, h8, h9, h10, h11,
    h12, h13, h14, h15, h16, h17]

/-- Witness for C7 at the character `~`. -/
theorem tilde_condition_error_20_witness :
    getToken 1 0 ['~'] = (⟨.NULL, .none, 1, 1⟩, 1, 1, []) :=
  tilde_condition_error_20.1 '~' rfl

/-- C10.  Parsing `begin end.` succeeds and yields a Block whose
statements list is exactly `[None]` (the empty first statement), and in
general every Block the statement parser produces has a non-empty
statements list in which only the first entry can be None: statements
after a semicolon are appended only when they are not None. -/
theorem begin_block_first_slot_null :
    parseProgram 10 (tokenize "begin end.") = .ok [.block [none]] ∧
    ∀ decls f ts stmts rest,
      parseStatement decls f ts = .ok (some (.block stmts), rest) →
      stmts ≠ [] ∧ ∀ x ∈ stmts.tail, x ≠ none := by
  refine ⟨rfl, ?_⟩
  intro decls f ts stmts rest h
  match f with
  | 0 => simp [parseStatement] at h
  | g + 1 =>
    simp only [parseStatement] at h
    split_ifs at h <;>
      (repeat' split at h) <;>
      first
        | (simp_all [List.mem_map]; done)
        | (simp only [Except.ok.injEq, Prod.mk.injEq, Option.some.injEq,
             Node.block.injEq] at h
           refine ⟨?_, ?_⟩
           · rw [← h.1]
             simp
           · intro x hx
             rw [← h.1] at hx
             simp only [List.tail_cons, List.mem_map] at hx
             obtain ⟨y, -, rfl⟩ := hx
             simp)

/-- Witness for C10: a begin block with an empty statement between the
semicolons; the empty statement is filtered out and every entry after the
first is non-null. -/
theorem begin_block_first_slot_null_witness :
    ([some (Node.assignment "x" (.number 1)),
      some (Node.assignment "y" (.number 2))] : List (Option Node)) ≠ [] ∧
    ∀ x ∈ ([some (Node.assignment "x" (.number 1)),
      some (Node.assignment "y" (.number 2))] : List (Option Node)).tail, x ≠ none :=
  begin_block_first_slot_null.2 [("x", .VAR), ("y", .VAR)] 12
    (tokenize "begin x := 1; ; y := 2 end")
    [some (Node.assignment "x" (.number 1)), some (Node.assignment "y" (.number 2))]
    [] rfl

/-- The argument loop consumes `, e2 , ... , en` and stops at the closing
parenthesis: if each argument's token list parses (at the fuel the loop
hands the expression parser) to its expression, consuming exactly up to
the following delimiter, the loop returns the expressions in order. -/
theorem parseArgsMore_join (decls : Decls) :
    ∀ (rest : List (List Token × Node)) (f : Nat) (acc : List Node) (tail : List Token),
      rest.length < f →
      (∀ i (hi : i < rest.length),
        parseExpression decls (f - 1 - i)
          ((rest.get ⟨i, hi⟩).1 ++ joinArgs (rest.drop (i + 1)) tail)
          = .ok ((rest.get ⟨i, hi⟩).2, joinArgs (rest.drop (i + 1)) tail)) →
      parseArgsMore decls f (joinArgs rest tail) acc
        = .ok (acc ++ rest.map Prod.snd, mkTok .RPAREN :: tail) := by
  intro rest
  induction rest with
  | nil =>
    intro f acc tail hf h
    obtain ⟨g, rfl⟩ : ∃ g, f = g + 1 := ⟨f - 1, by omega⟩
    simp [parseArgsMore, joinArgs, curTok, mkTok]
  | cons p rest ih =>
    obtain ⟨ts0, e0⟩ := p
    intro f acc tail hf h
    obtain ⟨g, rfl⟩ : ∃ g, f = g + 1 := ⟨f - 1, by omega⟩
    have h0 := h 0 (by simp)
    simp only [List.get, Nat.add_sub_cancel, Nat.sub_zero, List.drop_succ_cons,
      List.drop_zero] at h0
    have hshift : ∀ i (hi : i < rest.length),
        parseExpression decls (g - 1 - i)
          ((rest.get ⟨i, hi⟩).1 ++ joinArgs (rest.drop (i + 1)) tail)
          = .ok ((rest.get ⟨i, hi⟩).2, joinArgs (rest.drop (i + 1)) tail) := by
      intro i hi
      have hii := h (i + 1) (by simp only [List.length_cons]; omega)
      rw [show g + 1 - 1 - (i + 1) = g - 1 - i from by omega] at hii
      simpa only [List.get_cons_succ, List.drop_succ_cons] using hii
    have hlen : rest.length < g := by
      simp only [List.length_cons] at hf
      omega
    show parseArgsMore decls (g + 1) (joinArgs ((ts0, e0) :: rest) tail) acc = _
    rw [joinArgs]
    simp only [parseArgsMore, curTok, mkTok, List.headD, List.tail_cons,
      if_pos rfl]
    rw [h0]
    dsimp only
    rw [ih g (acc ++ [e0]) tail hlen hshift]
    simp [mkTok]

/-- C1.  Modelled from the spec (the argument-parsing parser is not under
src/): for every name `p` recorded as PROC in the declaration table and
every sequence of well-formed argument token lists, parsing the statement
`call p(e1, ..., en)` succeeds and yields a Call node whose arguments
field holds the n parsed expressions in order; with no parenthesized list
the Call node carries an empty arguments list.  "Well-formed" is the
hypothesis that each argument's tokens parse to its expression, consuming
exactly up to the following comma or closing parenthesis, at the fuel the
parser hands the expression parser there. -/
theorem call_arguments_in_order (decls : Decls) (p : String)
    (hp : declLookup decls p = some .PROC)
    (args : List (List Token × Node)) (tail : List Token) (f : Nat)
    (hf : args.length ≤ f)
    (htail : args = [] → (curTok tail).symbol ≠ .LPAREN)
    (hargs : ∀ i (hi : i < args.length),
      parseExpression decls (f - i)
        ((args.get ⟨i, hi⟩).1 ++ joinArgs (args.drop (i + 1)) tail)
        = .ok ((args.get ⟨i, hi⟩).2, joinArgs (args.drop (i + 1)) tail)) :
    parseCallStmt decls (f + 1) (callTokens p args tail)
      = .ok (some (.call p (args.map Prod.snd)), tail) := by
  cases args with
  | nil =>
    have hL := htail rfl
    have hL2 : (tail.head?.getD nullTok).symbol ≠ Symbol.LPAREN := by
      cases tail <;> simpa [curTok] using hL
    simp [parseCallStmt, callTokens, curTok, mkTok, mkIdentTok, pmatch,
      tokvalStr, hp, hL2]
  | cons p0 rest =>
    obtain ⟨ts0, e0⟩ := p0
    have h0 := hargs 0 (by simp)
    simp only [List.get, Nat.sub_zero, List.drop_succ_cons, List.drop_zero] at h0
    have hshift : ∀ i (hi : i < rest.length),
        parseExpression decls (f - 1 - i)
          ((rest.get ⟨i, hi⟩).1 ++ joinArgs (rest.drop (i + 1)) tail)
          = .ok ((rest.get ⟨i, hi⟩).2, joinArgs (rest.drop (i + 1)) tail) := by
      intro i hi
      have hii := hargs (i + 1) (by simp only [List.length_cons]; omega)
      rw [show f - (i + 1) = f - 1 - i from by omega] at hii
      simpa only [List.get_cons_succ, List.drop_succ_cons] using hii
    have hlen : rest.length < f := by
      simp only [List.length_cons] at hf
      omega
    have hjoin := parseArgsMore_join decls rest f [e0] tail hlen hshift
    simp [parseCallStmt, callTokens, curTok, mkTok, mkIdentTok, pmatch,
      tokvalStr, hp, h0, hjoin]

/-- Witness for C1: `call foo(a, b + 4)` with `foo` a procedure and
`a`, `b` variables — the argument list of the repository's own test. -/
theorem call_arguments_in_order_witness :
    parseCallStmt [("foo", .PROC), ("a", .VAR), ("b", .VAR)] 11
      (callTokens "foo"
        [([mkIdentTok "a"], .identifier "a"),
         ([mkIdentTok "b", mkTok .PLUS, ⟨.NUMBER, .int 4, 0, 0⟩],
          .binary .PLUS (.identifier "b") (.number 4))] [])
      = .ok (some (.call "foo"
          [.identifier "a", .binary .PLUS (.identifier "b") (.number 4)]), []) :=
  call_arguments_in_order [("foo", .PROC), ("a", .VAR), ("b", .VAR)] "foo" rfl
    [([mkIdentTok "a"], .identifier "a"),
     ([mkIdentTok "b", mkTok .PLUS, ⟨.NUMBER, .int 4, 0, 0⟩],
      .binary .PLUS (.identifier "b") (.number 4))] [] 10
    (by decide)
    (fun h => List.noConfusion h)
    (fun i hi =>
      match i, hi with
      | 0, _ => rfl
      | 1, _ => rfl)

/-- Unfolding equation for `genVisit` on a Const node. -/
theorem genVisit_constDecl (sc : Scope) (c : List Instr) (name : String) (v : Int) :
    genVisit sc c (.constDecl name v) = some (scopeSet sc name (.constB v), c) := rfl

/-- Unfolding equation for `genVisit` on a Var node. -/
theorem genVisit_varDecl (sc : Scope) (c : List Instr) (name : String) :
    genVisit sc c (.varDecl name)
      = some (scopeSet sc name (.varB (curLevel sc) ((declCount sc : Int) + 3)), c) := rfl

/-- Unfolding equation for `genVisit` on a Procedure node. -/
theorem genVisit_procedure (sc : Scope) (c : List Instr) (name : String)
    (params blocks : List Node) :
    genVisit sc c (.procedure name params blocks) =
      match bindParams ([] :: scopeSet sc name (.procB (curLevel sc) none)) params 1 with
      | none => none
      | some sc2 =>
        match genProcBlocks name c.length sc2 (c ++ [⟨.JMP, 0, 0⟩]) blocks with
        | none => none
        | some (sc3, c2) => some (sc3.tail, c2 ++ [⟨.OPR, 0, OPERATION.RETURN⟩]) := rfl

/-- Unfolding equation for `genVisit` on an Assignment node. -/
theorem genVisit_assignment (sc : Scope) (c : List Instr) (name : String) (value : Node) :
    genVisit sc c (.assignment name value) =
      match scopeLookup sc name with
      | none => none
      | some b =>
        match genVisit sc c value with
        | none => none
        | some (sc1, c1) =>
          match b with
          | .varB lvl off =>
            some (sc1, c1 ++ [⟨.STO, (curLevel sc : Int) - (lvl : Int), off⟩])
          | _ => none := rfl

/-- Unfolding equation for `genVisit` on a Call node. -/
theorem genVisit_call (sc : Scope) (c : List Instr) (name : String) (args : List Node) :
    genVisit sc c (.call name args) =
      match genVisitRev sc c args with
      | none => none
      | some (sc1, c1) =>
        match scopeLookup sc1 name with
        | some (.procB lvl (some addr)) =>
          some (sc1, c1 ++ [⟨.CAL, (curLevel sc1 : Int) - (lvl : Int), addr⟩]
            ++ List.replicate args.length ⟨.DET, 0, 0⟩)
        | _ => none := rfl

/-- Unfolding equation for `genVisit` on a Block node. -/
theorem genVisit_block (sc : Scope) (c : List Instr) (stmts : List (Option Node)) :
    genVisit sc c (.block stmts) = genVisitOptList sc c stmts := rfl

/-- Unfolding equation for `genVisit` on an If node with a missing body. -/
theorem genVisit_ifStmt_none (sc : Scope) (c : List Instr) (cond : Node) :
    genVisit sc c (.ifStmt cond none) =
      match genVisit sc c cond with
      | none => none
      | some _ => none := rfl

/-- Unfolding equation for `genVisit` on an If node with a body. -/
theorem genVisit_ifStmt_some (sc : Scope) (c : List Instr) (cond b : Node) :
    genVisit sc c (.ifStmt cond (some b)) =
      match genVisit sc c cond with
      | none => none
      | some (sc1, c1) =>
        match genVisit sc1 (c1 ++ [⟨.JPC, 0, 0⟩]) b with
        | none => none
        | some (sc2, c3) => some (sc2, setInstrValue c3 c1.length (c3.length : Int)) := rfl

/-- Unfolding equation for `genVisit` on a Loop node with a missing body. -/
theorem genVisit_loop_none (sc : Scope) (c : List Instr) (cond : Node) :
    genVisit sc c (.loop cond none) =
      match genVisit sc c cond with
      | none => none
      | some _ => none := rfl

/-- Unfolding equation for `genVisit` on a Loop node with a body. -/
theorem genVisit_loop_some (sc : Scope) (c : List Instr) (cond b : Node) :
    genVisit sc c (.loop cond (some b)) =
      match genVisit sc c cond with
      | none => none
      | some (sc1, c1) =>
        match genVisit sc1 (c1 ++ [⟨.JPC, 0, 0⟩]) b with
        | none => none
        | some (sc2, c3) =>
          some (sc2, setInstrValue (c3 ++ [⟨.JMP, 0, (c.length : Int)⟩])
            c1.length ((c3.length : Int) + 1)) := rfl

/-- Unfolding equation for `genVisit` on an Output node. -/
theorem genVisit_output (sc : Scope) (c : List Instr) (v : Node) :
    genVisit sc c (.output v) =
      match genVisit sc c v with
      | none => none
      | some (sc1, c1) => some (sc1, c1 ++ [⟨.OPR, 0, OPERATION.WRITE⟩]) := rfl

/-- Unfolding equation for `genVisit` on a Debug node. -/
theorem genVisit_debug (sc : Scope) (c : List Instr) :
    genVisit sc c .debug = some (sc, c ++ [⟨.OPR, 0, OPERATION.DEBUG⟩]) := rfl

/-- Unfolding equation for `genVisit` on a Unary node. -/
theorem genVisit_unary (sc : Scope) (c : List Instr) (op : Symbol) (rgt : Node) :
    genVisit sc c (.unary op rgt) =
      match genVisit sc c rgt with
      | none => none
      | some (sc1, c1) => some (sc1, c1 ++ [⟨.OPR, 0, OPERATION.NEGATE⟩]) := rfl

/-- Unfolding equation for `genVisit` on an Odd node. -/
theorem genVisit_odd (sc : Scope) (c : List Instr) (e : Node) :
    genVisit sc c (.odd e) =
      match genVisit sc c e with
      | none => none
      | some (sc1, c1) => some (sc1, c1 ++ [⟨.OPR, 0, OPERATION.ODD⟩]) := rfl

/-- Unfolding equation for `genVisit` on an Identifier node. -/
theorem genVisit_identifier (sc : Scope) (c : List Instr) (name : String) :
    genVisit sc c (.identifier name) =
      match scopeLookup sc name with
      | none => none
      | some (.constB v) => some (sc, c ++ [⟨.LIT, 0, v⟩])
      | some (.varB lvl off) =>
        some (sc, c ++ [⟨.LOD, (curLevel sc : Int) - (lvl : Int), off⟩])
      | some (.procB _ _) => some (sc, c) := rfl

/-- Unfolding equation for `genVisit` on a Number node. -/
theorem genVisit_number (sc : Scope) (c : List Instr) (v : Int) :
    genVisit sc c (.number v) = some (sc, c ++ [⟨.LIT, 0, v⟩]) := rfl

/-- Unfolding equation for `genVisit` on a Grouping node. -/
theorem genVisit_grouping (sc : Scope) (c : List Instr) (e : Node) :
    genVisit sc c (.grouping e) = genVisit sc c e := rfl

/-- Unfolding equation for `genProcBlocks` on the empty list. -/
theorem genProcBlocks_nil (name : String) (jmpIdx : Nat) (sc : Scope) (c : List Instr) :
    genProcBlocks name jmpIdx sc c [] = some (sc, c) := rfl

/-- Unfolding equation for `genProcBlocks` on a cons. -/
theorem genProcBlocks_cons (name : String) (jmpIdx : Nat) (sc : Scope) (c : List Instr)
    (n : Node) (rest : List Node) :
    genProcBlocks name jmpIdx sc c (n :: rest) =
      if shouldFixup n then
        match genVisit (scopeSetAddr1 sc name (c.length : Int))
            (fixupCode c jmpIdx (declCount sc)) n with
        | none => none
        | some (sc2, c2) => genProcBlocks name jmpIdx sc2 c2 rest
      else
        match genVisit sc c n with
        | none => none
        | some (sc2, c2) => genProcBlocks name jmpIdx sc2 c2 rest := rfl

/-- Unfolding equation for `genVisitRev` on the empty list. -/
theorem genVisitRev_nil (sc : Scope) (c : List Instr) :
    genVisitRev sc c [] = some (sc, c) := rfl

/-- Unfolding equation for `genVisitRev` on a cons. -/
theorem genVisitRev_cons (sc : Scope) (c : List Instr) (n : Node) (rest : List Node) :
    genVisitRev sc c (n :: rest) =
      match genVisitRev sc c rest with
      | none => none
      | some (sc1, c1) => genVisit sc1 c1 n := rfl

/-- Unfolding equation for `genVisitOptList` on the empty list. -/
theorem genVisitOptList_nil (sc : Scope) (c : List Instr) :
    genVisitOptList sc c [] = some (sc, c) := rfl

/-- Unfolding equation for `genVisitOptList` on a non-None head. -/
theorem genVisitOptList_cons_some (sc : Scope) (c : List Instr) (n : Node)
    (rest : List (Option Node)) :
    genVisitOptList sc c (some n :: rest) =
      match genVisit sc c n with
      | none => none
      | some (sc1, c1) => genVisitOptList sc1 c1 rest := rfl

/-- Unfolding equation for `genVisitOptList` on a None head (the visitor
dispatch would crash on Python None). -/
theorem genVisitOptList_cons_none (sc : Scope) (c : List Instr)
    (rest : List (Option Node)) :
    genVisitOptList sc c (none :: rest) = none := rfl

/-- `PresCode` is reflexive. -/
theorem presCode_refl (c : List Instr) : PresCode c c := ⟨le_refl _, fun _ _ => rfl⟩

/-- `PresCode` composes. -/
theorem presCode_trans {c1 c2 c3 : List Instr}
    (h1 : PresCode c1 c2) (h2 : PresCode c2 c3) : PresCode c1 c3 :=
  ⟨le_trans h1.1 h2.1, fun i hi => (h2.2 i (lt_of_lt_of_le hi h1.1)).trans (h1.2 i hi)⟩

/-- Appending instructions preserves the prefix. -/
theorem presCode_append (c d : List Instr) : PresCode c (c ++ d) :=
  ⟨by simp, fun i hi => List.get?_append hi⟩

/-- Appending after an extension still preserves the original prefix. -/
theorem presCode_append_of {c c2 : List Instr} (h : PresCode c c2) (d : List Instr) :
    PresCode c (c2 ++ d) := presCode_trans h (presCode_append c2 d)

/-- `setInstrValue` never changes the length. -/
theorem setInstrValue_length (c : List Instr) (i : Nat) (v : Int) :
    (setInstrValue c i v).length = c.length := by
  unfold setInstrValue
  cases h : c.get? i with
  | none => rfl
  | some ins => simp

/-- `setInstrValue` leaves every other index unchanged. -/
theorem setInstrValue_get_ne (c : List Instr) (i : Nat) (v : Int) (j : Nat)
    (h : j ≠ i) : (setInstrValue c i v).get? j = c.get? j := by
  unfold setInstrValue
  cases hg : c.get? i with
  | none => rfl
  | some ins => exact List.get?_set_ne _ c (Ne.symm h)

/-- Patching a slot at or above the prefix keeps `PresCode`. -/
theorem presCode_set_ge {c c2 : List Instr} (h : PresCode c c2) {j : Nat}
    (hj : c.length ≤ j) (v : Int) : PresCode c (setInstrValue c2 j v) := by
  refine ⟨by rw [setInstrValue_length]; exact h.1, fun i hi => ?_⟩
  rw [setInstrValue_get_ne c2 j v i (by omega)]
  exact h.2 i hi

/-- `fixup` grows the code by exactly the INT instruction. -/
theorem fixupCode_length (c : List Instr) (jmpIdx cnt : Nat) :
    (fixupCode c jmpIdx cnt).length = c.length + 1 := by
  simp [fixupCode, setInstrValue_length]

/-- `fixup` leaves every slot other than the placeholder unchanged. -/
theorem fixupCode_get_ne (c : List Instr) (jmpIdx cnt i : Nat)
    (hne : i ≠ jmpIdx) (hi : i < c.length) :
    (fixupCode c jmpIdx cnt).get? i = c.get? i := by
  unfold fixupCode
  rw [List.get?_append (by rw [setInstrValue_length]; exact hi)]
  exact setInstrValue_get_ne c jmpIdx _ i hne

/-- `fixup` points the placeholder's value at the pre-fixup code length. -/
theorem fixupCode_get_self (c : List Instr) (jmpIdx cnt : Nat)
    (hj : jmpIdx < c.length) :
    (fixupCode c jmpIdx cnt).get? jmpIdx
      = (c.get? jmpIdx).map (fun ins => {ins with value := (c.length : Int)}) := by
  unfold fixupCode
  rw [List.get?_append (by rw [setInstrValue_length]; exact hj)]
  unfold setInstrValue
  cases hg : c.get? jmpIdx with
  | none =>
    have := List.get?_eq_none.mp hg
    omega
  | some ins =>
    rw [List.get?_set_eq_of_lt _ hj]
    simp [hg]

/-- `fixup` emits `INT 0 (cnt + 3)` right at the pre-fixup code length. -/
theorem fixupCode_get_len (c : List Instr) (jmpIdx cnt : Nat) :
    (fixupCode c jmpIdx cnt).get? c.length = some ⟨.INT, 0, (cnt : Int) + 3⟩ := by
  unfold fixupCode
  rw [List.get?_append_right (by rw [setInstrValue_length])]
  rw [setInstrValue_length]
  simp

/-- The visitors only append instructions or patch slots at or above
their entry length: every visit preserves the code prefix present when it
started (for the procedure-body loop, every slot except the procedure's
own placeholder). -/
theorem genPres : ∀ k : Nat,
    (∀ n : Node, sizeOf n ≤ k → ∀ sc c r, genVisit sc c n = some r → PresCode c r.2) ∧
    (∀ l : List Node, sizeOf l ≤ k → ∀ sc c r, genVisitRev sc c l = some r → PresCode c r.2) ∧
    (∀ l : List (Option Node), sizeOf l ≤ k → ∀ sc c r,
      genVisitOptList sc c l = some r → PresCode c r.2) ∧
    (∀ l : List Node, sizeOf l ≤ k → ∀ name jmpIdx sc c r,
      genProcBlocks name jmpIdx sc c l = some r →
      c.length ≤ r.2.length ∧
      ∀ i, i < c.length → i ≠ jmpIdx → r.2.get? i = c.get? i) := by
  intro k
  induction k using Nat.strong_induction_on with
  | _ k IH =>
  refine ⟨?_, ?_, ?_, ?_⟩
  · intro n hsz sc c r h
    cases n with
    | constDecl name v =>
      rw [genVisit_constDecl] at h
      obtain rfl := Option.some.inj h
      exact presCode_refl c
    | varDecl name =>
      rw [genVisit_varDecl] at h
      obtain rfl := Option.some.inj h
      exact presCode_refl c
    | procedure name params blocks =>
      rw [genVisit_procedure] at h
      cases hbp : bindParams ([] :: scopeSet sc name (.procB (curLevel sc) none)) params 1 with
      | none => rw [hbp] at h; simp at h
      | some sc2 =>
        rw [hbp] at h
        dsimp only at h
        cases hg : genProcBlocks name c.length sc2 (c ++ [⟨.JMP, 0, 0⟩]) blocks with
        | none => rw [hg] at h; simp at h
        | some rp =>
          rw [hg] at h
          obtain ⟨sc3, c2⟩ := rp
          dsimp only at h
          obtain rfl := Option.some.inj h
          have hblocks : sizeOf blocks < k := by
            have hx := hsz
            simp at hx
            omega
          have hpres := (IH (sizeOf blocks) hblocks).2.2.2 blocks le_rfl name c.length
            sc2 (c ++ [⟨.JMP, 0, 0⟩]) (sc3, c2) hg
          refine presCode_append_of ⟨?_, ?_⟩ _
          · have hx := hpres.1
            simp at hx
            omega
          · intro i hi
            have h1 := hpres.2 i (by simp; omega) (by omega)
            rw [h1]
            exact List.get?_append hi
    | assignment name value =>
      rw [genVisit_assignment] at h
      cases hlk : scopeLookup sc name with
      | none => rw [hlk] at h; simp at h
      | some b =>
        rw [hlk] at h
        dsimp only at h
        cases hv : genVisit sc c value with
        | none => rw [hv] at h; simp at h
        | some rv =>
          rw [hv] at h
          obtain ⟨sc1, c1⟩ := rv
          dsimp only at h
          have hval : sizeOf value < k := by
            have hx := hsz
            simp at hx
            omega
          have hpres := (IH (sizeOf value) hval).1 value le_rfl sc c (sc1, c1) hv
          cases b with
          | varB lvl off =>
            dsimp only at h
            obtain rfl := Option.some.inj h
            exact presCode_append_of hpres _
          | constB v => simp at h
          | procB lvl addr => simp at h
    | call name args =>
      rw [genVisit_call] at h
      cases hr : genVisitRev sc c args with
      | none => rw [hr] at h; simp at h
      | some rv =>
        rw [hr] at h
        obtain ⟨sc1, c1⟩ := rv
        dsimp only at h
        have hargs : sizeOf args < k := by
          have hx := hsz
          simp at hx
          omega
        have hpres := (IH (sizeOf args) hargs).2.1 args le_rfl sc c (sc1, c1) hr
        cases hlk : scopeLookup sc1 name with
        | none => rw [hlk] at h; simp at h
        | some b =>
          rw [hlk] at h
          cases b with
          | constB v => simp at h
          | varB lvl off => simp at h
          | procB lvl addr =>
            cases addr with
            | none => simp at h
            | some a =>
              dsimp only at h
              obtain rfl := Option.some.inj h
              exact presCode_append_of (presCode_append_of hpres _) _
    | block stmts =>
      rw [genVisit_block] at h
      have hsts : sizeOf stmts < k := by
        have hx := hsz
        simp at hx
        omega
      exact (IH (sizeOf stmts) hsts).2.2.1 stmts le_rfl sc c r h
    | ifStmt cond body =>
      cases body with
      | none =>
        rw [genVisit_ifStmt_none] at h
        cases hc : genVisit sc c cond with
        | none => rw [hc] at h; simp at h
        | some rc => rw [hc] at h; simp at h
      | some b =>
        rw [genVisit_ifStmt_some] at h
        cases hc : genVisit sc c cond with
        | none => rw [hc] at h; simp at h
        | some rc =>
          rw [hc] at h
          obtain ⟨sc1, c1⟩ := rc
          dsimp only at h
          cases hb : genVisit sc1 (c1 ++ [⟨.JPC, 0, 0⟩]) b with
          | none => rw [hb] at h; simp at h
          | some rb =>
            rw [hb] at h
            obtain ⟨sc2, c3⟩ := rb
            dsimp only at h
            obtain rfl := Option.some.inj h
            have hcond : sizeOf cond < k := by
              have hx := hsz
              simp at hx
              omega
            have hbody : sizeOf b < k := by
              have hx := hsz
              simp at hx
              omega
            have hp1 := (IH _ hcond).1 cond le_rfl sc c (sc1, c1) hc
            have hp2 := (IH _ hbody).1 b le_rfl sc1 (c1 ++ [⟨.JPC, 0, 0⟩]) (sc2, c3) hb
            have hp3 : PresCode c c3 := presCode_trans (presCode_append_of hp1 _) hp2
            exact presCode_set_ge hp3 hp1.1 _
    | loop cond body =>
      cases body with
      | none =>
        rw [genVisit_loop_none] at h
        cases hc : genVisit sc c cond with
        | none => rw [hc] at h; simp at h
        | some rc => rw [hc] at h; simp at h
      | some b =>
        rw [genVisit_loop_some] at h
        cases hc : genVisit sc c cond with
        | none => rw [hc] at h; simp at h
        | some rc =>
          rw [hc] at h
          obtain ⟨sc1, c1⟩ := rc
          dsimp only at h
          cases hb : genVisit sc1 (c1 ++ [⟨.JPC, 0, 0⟩]) b with
          | none => rw [hb] at h; simp at h
          | some rb =>
            rw [hb] at h
            obtain ⟨sc2, c3⟩ := rb
            dsimp only at h
            obtain rfl := Option.some.inj h
            have hcond : sizeOf cond < k := by
              have hx := hsz
              simp at hx
              omega
            have hbody : sizeOf b < k := by
              have hx := hsz
              simp at hx
              omega
            have hp1 := (IH _ hcond).1 cond le_rfl sc c (sc1, c1) hc
            have hp2 := (IH _ hbody).1 b le_rfl sc1 (c1 ++ [⟨.JPC, 0, 0⟩]) (sc2, c3) hb
            have hp3 : PresCode c c3 := presCode_trans (presCode_append_of hp1 _) hp2
            exact presCode_set_ge (presCode_append_of hp3 _) hp1.1 _
    | output v =>
      rw [genVisit_output] at h
      cases hv : genVisit sc c v with
      | none => rw [hv] at h; simp at h
      | some rv =>
        rw [hv] at h
        obtain ⟨sc1, c1⟩ := rv
        dsimp only at h
        obtain rfl := Option.some.inj h
        have hval : sizeOf v < k := by
          have hx := hsz
          simp at hx
          omega
        exact presCode_append_of ((IH _ hval).1 v le_rfl sc c (sc1, c1) hv) _
    | debug =>
      rw [genVisit_debug] at h
      obtain rfl := Option.some.inj h
      exact presCode_append c _
    | binary op lft rgt =>
      rw [genVisit_binary] at h
      cases h1 : genVisit sc c lft with
      | none => rw [h1] at h; simp at h
      | some r1 =>
        rw [h1] at h
        obtain ⟨sc1, c1⟩ := r1
        dsimp only at h
        cases h2 : genVisit sc1 c1 rgt with
        | none => rw [h2] at h; simp at h
        | some r2 =>
          rw [h2] at h
          obtain ⟨sc2, c2⟩ := r2
          dsimp only at h
          obtain rfl := Option.some.inj h
          have hl : sizeOf lft < k := by
            have hx := hsz
            simp at hx
            omega
          have hr2 : sizeOf rgt < k := by
            have hx := hsz
            simp at hx
            omega
          exact presCode_append_of (presCode_trans
            ((IH _ hl).1 lft le_rfl sc c (sc1, c1) h1)
            ((IH _ hr2).1 rgt le_rfl sc1 c1 (sc2, c2) h2)) _
    | unary op rgt =>
      rw [genVisit_unary] at h
      cases hv : genVisit sc c rgt with
      | none => rw [hv] at h; simp at h
      | some rv =>
        rw [hv] at h
        obtain ⟨sc1, c1⟩ := rv
        dsimp only at h
        obtain rfl := Option.some.inj h
        have hval : sizeOf rgt < k := by
          have hx := hsz
          simp at hx
          omega
        exact presCode_append_of ((IH _ hval).1 rgt le_rfl sc c (sc1, c1) hv) _
    | odd e =>
      rw [genVisit_odd] at h
      cases hv : genVisit sc c e with
      | none => rw [hv] at h; simp at h
      | some rv =>
        rw [hv] at h
        obtain ⟨sc1, c1⟩ := rv
        dsimp only at h
        obtain rfl := Option.some.inj h
        have hval : sizeOf e < k := by
          have hx := hsz
          simp at hx
          omega
        exact presCode_append_of ((IH _ hval).1 e le_rfl sc c (sc1, c1) hv) _
    | identifier name =>
      rw [genVisit_identifier] at h
      cases hlk : scopeLookup sc name with
      | none => rw [hlk] at h; simp at h
      | some b =>
        rw [hlk] at h
        cases b with
        | constB v =>
          dsimp only at h
          obtain rfl := Option.some.inj h
          exact presCode_append c _
        | varB lvl off =>
          dsimp only at h
          obtain rfl := Option.some.inj h
          exact presCode_append c _
        | procB lvl addr =>
          dsimp only at h
          obtain rfl := Option.some.inj h
          exact presCode_refl c
    | number v =>
      rw [genVisit_number] at h
      obtain rfl := Option.some.inj h
      exact presCode_append c _
    | grouping e =>
      rw [genVisit_grouping] at h
      have hval : sizeOf e < k := by
        have hx := hsz
        simp at hx
        omega
      exact (IH _ hval).1 e le_rfl sc c r h
  · intro l hsz sc c r h
    cases l with
    | nil =>
      rw [genVisitRev_nil] at h
      obtain rfl := Option.some.inj h
      exact presCode_refl c
    | cons n rest =>
      rw [genVisitRev_cons] at h
      cases hr : genVisitRev sc c rest with
      | none => rw [hr] at h; simp at h
      | some rv =>
        rw [hr] at h
        obtain ⟨sc1, c1⟩ := rv
        dsimp only at h
        have h1 : sizeOf rest < k := by
          have hx := hsz
          simp at hx
          omega
        have h2 : sizeOf n < k := by
          have hx := hsz
          simp at hx
          omega
        exact presCode_trans
          ((IH _ h1).2.1 rest le_rfl sc c (sc1, c1) hr)
          ((IH _ h2).1 n le_rfl sc1 c1 r h)
  · intro l hsz sc c r h
    cases l with
    | nil =>
      rw [genVisitOptList_nil] at h
      obtain rfl := Option.some.inj h
      exact presCode_refl c
    | cons o rest =>
      cases o with
      | none => rw [genVisitOptList_cons_none] at h; simp at h
      | some n =>
        rw [genVisitOptList_cons_some] at h
        cases hv : genVisit sc c n with
        | none => rw [hv] at h; simp at h
        | some rv =>
          rw [hv] at h
          obtain ⟨sc1, c1⟩ := rv
          dsimp only at h
          have h1 : sizeOf n < k := by
            have hx := hsz
            simp at hx
            omega
          have h2 : sizeOf rest < k := by
            have hx := hsz
            simp at hx
            omega
          exact presCode_trans
            ((IH _ h1).1 n le_rfl sc c (sc1, c1) hv)
            ((IH _ h2).2.2.1 rest le_rfl sc1 c1 r h)
  · intro l hsz name jmpIdx sc c r h
    cases l with
    | nil =>
      rw [genProcBlocks_nil] at h
      obtain rfl := Option.some.inj h
      exact ⟨le_refl _, fun i _ _ => rfl⟩
    | cons n rest =>
      rw [genProcBlocks_cons] at h
      have hn : sizeOf n < k := by
        have hx := hsz
        simp at hx
        omega
      have hrest : sizeOf rest < k := by
        have hx := hsz
        simp at hx
        omega
      by_cases hex : shouldFixup n = true
      · rw [if_pos hex] at h
        cases hv : genVisit (scopeSetAddr1 sc name (c.length : Int))
            (fixupCode c jmpIdx (declCount sc)) n with
        | none => rw [hv] at h; simp at h
        | some rv =>
          rw [hv] at h
          obtain ⟨sc2, c2⟩ := rv
          dsimp only at h
          have hp1 := (IH _ hn).1 n le_rfl _ _ (sc2, c2) hv
          dsimp only at hp1
          have hp2 := (IH _ hrest).2.2.2 rest le_rfl name jmpIdx sc2 c2 r h
          constructor
          · have l1 := hp1.1
            have l2 := hp2.1
            rw [fixupCode_length] at l1
            omega
          · intro i hi hne
            have l1 := hp1.1
            rw [fixupCode_length] at l1
            have e1 := hp2.2 i (by omega) hne
            have e2 := hp1.2 i (by rw [fixupCode_length]; omega)
            rw [e1, e2]
            exact fixupCode_get_ne c jmpIdx _ i hne hi
      · rw [if_neg hex] at h
        cases hv : genVisit sc c n with
        | none => rw [hv] at h; simp at h
        | some rv =>
          rw [hv] at h
          obtain ⟨sc2, c2⟩ := rv
          dsimp only at h
          have hp1 := (IH _ hn).1 n le_rfl sc c (sc2, c2) hv
          dsimp only at hp1
          have hp2 := (IH _ hrest).2.2.2 rest le_rfl name jmpIdx sc2 c2 r h
          exact ⟨le_trans hp1.1 hp2.1, fun i hi hne =>
            (hp2.2 i (lt_of_lt_of_le hi hp1.1) hne).trans (hp1.2 i hi)⟩

/-- Every successful visit preserves the code prefix it started from. -/
theorem genVisit_presCode (n : Node) (sc : Scope) (c : List Instr)
    (r : Scope × List Instr) (h : genVisit sc c n = some r) : PresCode c r.2 :=
  (genPres (sizeOf n)).1 n le_rfl sc c r h

/-- C4 counterexample: with two executable top-level nodes the generator
patches the placeholder twice (it ends at target 4, not 1) and emits two
INT instructions — there is no only-first-node fixup guard. -/
theorem fixup_counterexample :
    generate_code [.output (.number 1), .output (.number 2)] =
      some [⟨.JMP, 0, 4⟩, ⟨.INT, 0, 3⟩, ⟨.LIT, 0, 1⟩, ⟨.OPR, 0, 14⟩,
        ⟨.INT, 0, 3⟩, ⟨.LIT, 0, 2⟩, ⟨.OPR, 0, 14⟩, ⟨.OPR, 0, 0⟩] ∧
    (generate_code [.output (.number 1), .output (.number 2)]).map
        (fun l => (l.filter (fun ins => ins.op == OpCode.INT)).length) = some 2 :=
  ⟨rfl, rfl⟩

/-- C4 (amended).  Every executable node processed by the top-level loop
triggers the fixup — the placeholder at index 0 is re-patched to the
current code length and a fresh `INT 0 (declaration_count + 3)` is
emitted there — while non-executable nodes leave the placeholder alone;
the loop never checks whether the placeholder is already resolved. -/
theorem fixup_reruns_for_every_executable (sc : Scope) (c : List Instr) (n : Node)
    (sc2 : Scope) (c2 : List Instr)
    (hstep : genTopStep sc c n = some (sc2, c2)) :
    (shouldFixup n = true → 0 < c.length →
      c2.get? 0 = (c.get? 0).map (fun ins => {ins with value := (c.length : Int)}) ∧
      c2.get? c.length = some ⟨.INT, 0, (declCount sc : Int) + 3⟩) ∧
    (shouldFixup n = false → 0 < c.length → c2.get? 0 = c.get? 0) := by
  constructor
  · intro hex hpos
    unfold genTopStep at hstep
    rw [if_pos hex] at hstep
    have hp := genVisit_presCode n _ _ _ hstep
    constructor
    · rw [hp.2 0 (by rw [fixupCode_length]; omega)]
      exact fixupCode_get_self c 0 _ hpos
    · rw [hp.2 c.length (by rw [fixupCode_length]; omega)]
      exact fixupCode_get_len c 0 _
  · intro hex hpos
    unfold genTopStep at hstep
    rw [if_neg (by simp [hex])] at hstep
    have hp := genVisit_presCode n _ _ _ hstep
    exact hp.2 0 hpos

/-- Witness for the amended C4: processing the second executable node
from the code state left by the first re-patches the placeholder to the
new length and emits another INT. -/
theorem fixup_reruns_for_every_executable_witness :
    ∃ sc2 c2, genTopStep [[]] c4WitCode (.output (.number 2)) = some (sc2, c2) ∧
      c2.get? 0 = (c4WitCode.get? 0).map
        (fun ins => {ins with value := (c4WitCode.length : Int)}) ∧
      c2.get? c4WitCode.length
        = some ⟨.INT, 0, (declCount ([[]] : Scope) : Int) + 3⟩ := by
  refine ⟨_, _, rfl, ?_, ?_⟩
  · exact ((fixup_reruns_for_every_executable [[]] c4WitCode (.output (.number 2))
      _ _ rfl).1 rfl (by decide)).1
  · exact ((fixup_reruns_for_every_executable [[]] c4WitCode (.output (.number 2))
      _ _ rfl).1 rfl (by decide)).2

end PL0
